import Mathlib

/-!
Verification development for the Marakatas tactical-RPG combat core.

The definitions below are a shallow embedding of the combat rules engine:
`AbilitySystem` (src/systems/MissionManager.js, second concatenated module),
`CharacterStats` / `SessionCharacter` / `GameSession` (src/data/Character.js),
`GridSystem.calculateMovementRange` (src/systems/GridSystem.js) and
`IsometricGrid.calculateMovementRange` (src/systems/IsometricGrid.js).

Modelling conventions:
* JavaScript numbers are embedded as `Int` (all arithmetic in the combat core
  is integral); `Math.floor(x/2)` becomes `Int.fdiv`.
* Mutation of the shared participant array is embedded as explicit state
  passing over `List SessionCharacter`; JS object references are replaced by
  participant ids, looked up in the current list at every access (faithful to
  reference semantics as long as ids are distinct, which theorems assume where
  it matters).
* Fallible paths (a JS `TypeError` from reading a field of `null`) are
  embedded as `Option`: `executeAbility` returns `none` exactly where the
  source would throw.
* `Phaser.Math.Between(1, sides)` is embedded as an explicit roll stream
  `rng : Nat → Int`; the k-th call made during one `executeAbility` invocation
  returns `rng k`.
* Presentation-only data (sprite handles, `Date.now()` timestamps in log
  entries, `race`/`class` strings) is omitted; it is never read by the rules
  logic embedded here.
-/

namespace Marakatas

/-! ## Geometry (src/systems/MissionManager.js `calculateDistance`) -/

/-- Chebyshev distance on the grid (8-directional):
`Math.max(Math.abs(x1-x2), Math.abs(y1-y2))`. -/
def calculateDistance (x1 y1 x2 y2 : Int) : Int :=
  max |x1 - x2| |y1 - y2|

/-! ## Dice notation (src/systems/MissionManager.js `parseDiceNotation`, `rollDice`)

The source matches the unanchored regex `/(\d+)d(\d+)(?:\+(\d+))?/` against the
string and falls back to `{dice:0, sides:0, bonus:0}` when the string is falsy
or there is no match.  The functions below reproduce the regex semantics
exactly: try each start position from the left; at a given start position the
three `\d+` groups are maximal digit runs (no backtracking can help, because a
digit run is never followed by more digits), the `d` and `+` are literal, and
the `(?:\+(\d+))?` group is optional. -/

structure DiceSpec where
  dice : Nat
  sides : Nat
  bonus : Nat
deriving Repr, DecidableEq

/-- Split a character list into its maximal leading digit run and the rest. -/
def takeDigits : List Char → List Char × List Char
  | [] => ([], [])
  | c :: cs =>
      if c.isDigit then
        let (run, rest) := takeDigits cs
        (c :: run, rest)
      else ([], c :: cs)

/-- Decimal value of a digit string (`parseInt` on the captured group). -/
def digitsToNat (ds : List Char) : Nat :=
  ds.foldl (fun acc c => acc * 10 + (c.toNat - '0'.toNat)) 0

/-- Try to match `(\d+)d(\d+)(?:\+(\d+))?` starting at the head of the list. -/
def matchDiceAt (s : List Char) : Option (Nat × Nat × Nat) :=
  let (a, rest1) := takeDigits s
  if a.isEmpty then none
  else
    match rest1 with
    | 'd' :: rest2 =>
        let (b, rest3) := takeDigits rest2
        if b.isEmpty then none
        else
          match rest3 with
          | '+' :: rest4 =>
              let (c, _) := takeDigits rest4
              if c.isEmpty then some (digitsToNat a, digitsToNat b, 0)
              else some (digitsToNat a, digitsToNat b, digitsToNat c)
          | _ => some (digitsToNat a, digitsToNat b, 0)
    | _ => none

/-- Leftmost match of the dice regex anywhere in the string. -/
def findDiceMatch : List Char → Option (Nat × Nat × Nat)
  | [] => none
  | c :: cs =>
      match matchDiceAt (c :: cs) with
      | some r => some r
      | none => findDiceMatch cs

/-- `parseDiceNotation`: `""` plays the role of every falsy JS input
(`undefined`, `null`, `''`), all of which short-circuit to the zero spec. -/
def parseDiceNotation (s : String) : DiceSpec :=
  if s.data.isEmpty then ⟨0, 0, 0⟩
  else
    match findDiceMatch s.data with
    | none => ⟨0, 0, 0⟩
    | some (a, b, c) => ⟨a, b, c⟩

/-- `rollDice`: `total = bonus; for i < dice: total += Between(1, sides)`.
Takes the roll stream and the index of the next unconsumed roll; returns the
total and the next index. -/
def rollDice (spec : DiceSpec) (rng : Nat → Int) (k : Nat) : Int × Nat :=
  ((List.range spec.dice).foldl (fun acc i => acc + rng (k + i)) (spec.bonus : Int),
   k + spec.dice)

/-! ## Character model (src/data/Character.js `CharacterStats`) -/

/-- `getModifier`: `Math.floor((attributeValue - 10) / 2)`. -/
def getModifier (attributeValue : Int) : Int :=
  Int.fdiv (attributeValue - 10) 2

structure CharacterStats where
  name : String
  level : Int
  bala : Int
  dakshata : Int
  dhriti : Int
  buddhi : Int
  prajna : Int
  samkalpa : Int
  maxPrana : Int
  maxTapas : Int
  maxMaya : Int
deriving Repr, DecidableEq

/-- `calculateMaxPrana`: `max(1, 20 + dhriti*2 + buddhi + (level-1)*5)`. -/
def calculateMaxPrana (level dhriti buddhi : Int) : Int :=
  max 1 (20 + dhriti * 2 + buddhi + (level - 1) * 5)

/-- `calculateMaxTapas`: `max(5, 10 + level*2 + getModifier(bala)*2 + getModifier(dakshata))`. -/
def calculateMaxTapas (level bala dakshata : Int) : Int :=
  max 5 (10 + level * 2 + getModifier bala * 2 + getModifier dakshata)

/-- `calculateMaxMaya`: `max(5, 10 + level*2 + getModifier(buddhi)*2 + getModifier(prajna))`. -/
def calculateMaxMaya (level buddhi prajna : Int) : Int :=
  max 5 (10 + level * 2 + getModifier buddhi * 2 + getModifier prajna)

/-- The `CharacterStats` constructor: attributes in, derived pools computed. -/
def mkCharacterStats (name : String)
    (level bala dakshata dhriti buddhi prajna samkalpa : Int) : CharacterStats :=
  { name := name, level := level, bala := bala, dakshata := dakshata,
    dhriti := dhriti, buddhi := buddhi, prajna := prajna, samkalpa := samkalpa,
    maxPrana := calculateMaxPrana level dhriti buddhi,
    maxTapas := calculateMaxTapas level bala dakshata,
    maxMaya := calculateMaxMaya level buddhi prajna }

/-- Dynamic attribute access `character[attributeName]`.  The source reaches
`undefined` (and then `NaN` arithmetic) for a name that is not one of the six
attributes; the embedding is only ever used through abilities whose
`damageAttribute`, when present, names a real attribute (as every entry of the
ability catalog does), and theorems that depend on the looked-up value carry
that well-formedness as a hypothesis. -/
def CharacterStats.attrValue (c : CharacterStats) (a : String) : Int :=
  if a = "bala" then c.bala
  else if a = "dakshata" then c.dakshata
  else if a = "dhriti" then c.dhriti
  else if a = "buddhi" then c.buddhi
  else if a = "prajna" then c.prajna
  else if a = "samkalpa" then c.samkalpa
  else 0

/-! ## Session actor (src/data/Character.js `SessionCharacter`) -/

structure StatusEffect where
  name : String
  duration : Int
deriving Repr, DecidableEq

structure SessionCharacter where
  id : String
  character : CharacterStats
  team : String
  x : Int
  y : Int
  z : Int
  currentPrana : Int
  currentTapas : Int
  currentMaya : Int
  remainingSpeed : Int
  actions : Int
  bonusActions : Int
  reactions : Int
  status : String
  statusEffects : List StatusEffect
  damageDealt : Int
  damageReceived : Int
deriving Repr, DecidableEq

/-- The `SessionCharacter` constructor (current pools start at the ceilings,
action economy full, status `active`). -/
def mkSessionCharacter (character : CharacterStats) (idv team : String)
    (x y z movementSpeed : Int) : SessionCharacter :=
  { id := idv, character := character, team := team, x := x, y := y, z := z,
    currentPrana := character.maxPrana,
    currentTapas := character.maxTapas,
    currentMaya := character.maxMaya,
    remainingSpeed := movementSpeed,
    actions := 1, bonusActions := 1, reactions := 4,
    status := "active", statusEffects := [],
    damageDealt := 0, damageReceived := 0 }

/-- `reset()`: turn-start reset.  Movement is reset to the hardcoded baseline
6 (not the constructed `movementSpeed`); each status effect's duration is
decremented and the effect dropped once it is no longer positive. -/
def SessionCharacter.reset (c : SessionCharacter) : SessionCharacter :=
  { c with
    actions := 1, bonusActions := 1, reactions := 4, remainingSpeed := 6,
    statusEffects := c.statusEffects.filterMap fun e =>
      if e.duration - 1 > 0 then some { e with duration := e.duration - 1 } else none }

/-- `canTakeAction(actionType)`. -/
def SessionCharacter.canTakeAction (c : SessionCharacter) (actionType : String) : Bool :=
  if actionType = "action" then c.actions > 0
  else if actionType = "bonus_action" then c.bonusActions > 0
  else if actionType = "reaction" then c.reactions > 0 && c.status ≠ "downed"
  else if actionType = "free" then c.status ≠ "downed"
  else false

/-- `spendAction(actionType)`: decrement the relevant counter, floored at 0. -/
def SessionCharacter.spendAction (c : SessionCharacter) (actionType : String) : SessionCharacter :=
  if actionType = "action" then { c with actions := max 0 (c.actions - 1) }
  else if actionType = "bonus_action" then { c with bonusActions := max 0 (c.bonusActions - 1) }
  else if actionType = "reaction" then { c with reactions := max 0 (c.reactions - 1) }
  else c

/-- `spendResource(resourceType, amount)`: check sufficiency, decrement on
success, report success/failure. -/
def SessionCharacter.spendResource (c : SessionCharacter) (resourceType : String)
    (amount : Int) : Bool × SessionCharacter :=
  if resourceType = "prana" then
    if c.currentPrana ≥ amount then (true, { c with currentPrana := c.currentPrana - amount })
    else (false, c)
  else if resourceType = "tapas" then
    if c.currentTapas ≥ amount then (true, { c with currentTapas := c.currentTapas - amount })
    else (false, c)
  else if resourceType = "maya" then
    if c.currentMaya ≥ amount then (true, { c with currentMaya := c.currentMaya - amount })
    else (false, c)
  else if resourceType = "speed" then
    if c.remainingSpeed ≥ amount then (true, { c with remainingSpeed := c.remainingSpeed - amount })
    else (false, c)
  else (false, c)

/-- `restoreResource(resourceType, amount)`: add, clamped at the ceiling.
(The source has no `speed` branch here.) -/
def SessionCharacter.restoreResource (c : SessionCharacter) (resourceType : String)
    (amount : Int) : SessionCharacter :=
  if resourceType = "prana" then
    { c with currentPrana := min (c.currentPrana + amount) c.character.maxPrana }
  else if resourceType = "tapas" then
    { c with currentTapas := min (c.currentTapas + amount) c.character.maxTapas }
  else if resourceType = "maya" then
    { c with currentMaya := min (c.currentMaya + amount) c.character.maxMaya }
  else c

/-- `moveTo(newX, newY, newZ)`: update position, return Chebyshev distance
moved together with the new state. -/
def SessionCharacter.moveTo (c : SessionCharacter) (newX newY newZ : Int) :
    Int × SessionCharacter :=
  (max |newX - c.x| |newY - c.y|,
   { c with x := newX, y := newY, z := newZ })

/-- Update the first list entry satisfying the predicate (the JS
`find`-then-mutate idiom). -/
def updateFirst (p : StatusEffect → Bool) (f : StatusEffect → StatusEffect) :
    List StatusEffect → List StatusEffect
  | [] => []
  | e :: es => if p e then f e :: es else e :: updateFirst p f es

/-- `addStatusEffect(effectName, duration)`: refresh the first existing entry
of that name to `max(existing, new)` duration, else append a new entry. -/
def SessionCharacter.addStatusEffect (c : SessionCharacter) (effectName : String)
    (duration : Int) : SessionCharacter :=
  if c.statusEffects.any (fun e => e.name = effectName) then
    let refreshed := updateFirst (fun e => e.name = effectName)
      (fun e => { e with duration := max e.duration duration }) c.statusEffects
    { c with statusEffects := refreshed }
  else
    { c with statusEffects := c.statusEffects ++ [{ name := effectName, duration := duration }] }

/-- `removeStatusEffect(effectName)`. -/
def SessionCharacter.removeStatusEffect (c : SessionCharacter) (effectName : String) :
    SessionCharacter :=
  { c with statusEffects := c.statusEffects.filter fun e => e.name ≠ effectName }

/-- `hasStatusEffect(effectName)`. -/
def SessionCharacter.hasStatusEffect (c : SessionCharacter) (effectName : String) : Bool :=
  c.statusEffects.any fun e => e.name = effectName

/-- `takeDamage(amount)`: clamp Prana at 0, accumulate `damageReceived`, flip
status to `downed` when Prana reaches 0; return the actual damage dealt
(old minus new Prana) with the new state. -/
def SessionCharacter.takeDamage (c : SessionCharacter) (amount : Int) :
    Int × SessionCharacter :=
  let oldPrana := c.currentPrana
  let c := { c with currentPrana := max 0 (c.currentPrana - amount),
                    damageReceived := c.damageReceived + amount }
  let c := if c.currentPrana ≤ 0 then { c with status := "downed" } else c
  (oldPrana - c.currentPrana, c)

/-- `heal(amount)`: add Prana clamped at the ceiling, revive from `downed` to
`active` when now positive; return the actual healing with the new state. -/
def SessionCharacter.heal (c : SessionCharacter) (amount : Int) :
    Int × SessionCharacter :=
  let oldPrana := c.currentPrana
  let c := { c with currentPrana := min (c.currentPrana + amount) c.character.maxPrana }
  let actualHealing := c.currentPrana - oldPrana
  let c := if c.status = "downed" ∧ c.currentPrana > 0 then { c with status := "active" } else c
  (actualHealing, c)

/-! ## Combat session (src/data/Character.js `GameSession`)

The source's `logEntries` (which carry `Date.now()` timestamps) and the
rendering-facing fields are bookkeeping never read back by the rules logic
embedded here and are omitted. -/

structure GameSession where
  id : String
  name : String
  participants : List SessionCharacter
  turnOrder : List String
  currentTurnIndex : Nat
  round : Int
  mapWidth : Int
  mapHeight : Int
  isActive : Bool
deriving Repr, DecidableEq

/-- `getCurrentActor()`. -/
def GameSession.getCurrentActor (s : GameSession) : Option SessionCharacter :=
  if s.turnOrder.length = 0 then none
  else s.participants.find? fun p => some p.id = s.turnOrder.get? s.currentTurnIndex

/-- `nextTurn()`: advance the index; on exhausting the turn order, wrap to 0,
increment the round, and reset every participant.  (The source additionally
returns `getCurrentActor()`; the state transition is what matters here.) -/
def GameSession.nextTurn (s : GameSession) : GameSession :=
  let s := { s with currentTurnIndex := s.currentTurnIndex + 1 }
  if s.currentTurnIndex ≥ s.turnOrder.length then
    { s with currentTurnIndex := 0, round := s.round + 1,
             participants := s.participants.map SessionCharacter.reset }
  else s

/-- `checkCombatEnd()`. -/
def GameSession.checkCombatEnd (s : GameSession) : Option String :=
  let playerTeam := s.participants.filter fun p => p.team = "player" ∨ p.team = "ally"
  let enemyTeam := s.participants.filter fun p => p.team = "enemy"
  let playersActive := playerTeam.any fun p => p.status = "active"
  let enemiesActive := enemyTeam.any fun p => p.status = "active"
  if ¬ playersActive then some "enemies_won"
  else if ¬ enemiesActive then some "players_won"
  else none

/-! ## Flat grid (src/systems/GridSystem.js)

Only the state read by `calculateMovementRange` is embedded: the board
dimensions and the occupancy map (a `Map` keyed by the string `"x,y"`, which
for integer coordinates is the same as keying by the pair). -/

structure GridSystem where
  gridWidth : Int
  gridHeight : Int
  occupiedCells : List (Int × Int)
deriving Repr, DecidableEq

/-- `isValidPosition(gridX, gridY)`. -/
def GridSystem.isValidPosition (g : GridSystem) (gridX gridY : Int) : Bool :=
  gridX ≥ 0 && gridX < g.gridWidth && gridY ≥ 0 && gridY < g.gridHeight

/-- `isOccupied(gridX, gridY)`. -/
def GridSystem.isOccupied (g : GridSystem) (gridX gridY : Int) : Bool :=
  (gridX, gridY) ∈ g.occupiedCells

/-- The inclusive integer range `lo..hi` (the values taken by a JS
`for (v = lo; v <= hi; v++)` loop). -/
def intRange (lo hi : Int) : List Int :=
  (List.range (hi - lo + 1).toNat).map fun (i : Nat) => lo + (i : Int)

/-- `GridSystem.calculateMovementRange(gridX, gridY, range)`: the doubly
nested `dx`/`dy` loop from `-range` to `range`, pushing `(gridX+dx, gridY+dy)`
when the Manhattan distance `|dx|+|dy|` is in `(0, range]` and the cell is
in bounds and unoccupied.  The nested conditional pushes are rendered as
`flatMap`/`filterMap`, which produces the same list in the same order. -/
def GridSystem.calculateMovementRange (g : GridSystem) (gridX gridY range : Int) :
    List (Int × Int) :=
  (intRange (-range) range).flatMap fun dx =>
    (intRange (-range) range).filterMap fun dy =>
      let distance := |dx| + |dy|
      let newX := gridX + dx
      let newY := gridY + dy
      if distance ≤ range ∧ distance > 0 ∧
          g.isValidPosition newX newY ∧ ¬ g.isOccupied newX newY
      then some (newX, newY) else none

/-! ## Isometric grid (src/systems/IsometricGrid.js)

Only the state read by `isValidTile` / `isOccupied` / `calculateMovementRange`
is embedded: dimensions and the per-tile `walkable`/`occupied` flags. -/

structure IsoTile where
  walkable : Bool
  occupied : Bool
deriving Repr, DecidableEq

structure IsometricGrid where
  gridWidth : Int
  gridHeight : Int
  tiles : Int → Int → IsoTile

/-- `IsometricGrid.isValidTile(gridX, gridY)`. -/
def IsometricGrid.isValidTile (g : IsometricGrid) (gridX gridY : Int) : Bool :=
  if gridX < 0 ∨ gridX ≥ g.gridWidth then false
  else if gridY < 0 ∨ gridY ≥ g.gridHeight then false
  else (g.tiles gridX gridY).walkable

/-- `IsometricGrid.isOccupied(gridX, gridY)`. -/
def IsometricGrid.isOccupied (g : IsometricGrid) (gridX gridY : Int) : Bool :=
  if ¬ g.isValidTile gridX gridY then true
  else (g.tiles gridX gridY).occupied

/-- A BFS queue entry `{x, y, dist}`. -/
structure QueueEntry where
  x : Int
  y : Int
  dist : Int
deriving Repr, DecidableEq

/-- One `while (queue.length > 0)` BFS loop of
`IsometricGrid.calculateMovementRange`, with explicit fuel.  Each loop
iteration consumes one queue entry; entries are enqueued only once per
processing of an unvisited cell (at most `4·gridWidth·gridHeight + 1` pushes
on any board), so the wrapper's fuel is never exhausted. -/
def IsometricGrid.bfsLoop (g : IsometricGrid) (startX startY maxDistance : Int)
    (ignoreUnits : Bool) :
    Nat → List QueueEntry → List (Int × Int) → List QueueEntry → List QueueEntry
  | 0, _, _, acc => acc
  | _ + 1, [], _, acc => acc
  | fuel + 1, cur :: queue, visited, acc =>
      if (cur.x, cur.y) ∈ visited then
        g.bfsLoop startX startY maxDistance ignoreUnits fuel queue visited acc
      else
        let visited := (cur.x, cur.y) :: visited
        let acc :=
          if cur.dist ≤ maxDistance && g.isValidTile cur.x cur.y &&
              (ignoreUnits || !g.isOccupied cur.x cur.y ||
               (cur.x = startX && cur.y = startY))
          then acc ++ [cur] else acc
        let queue :=
          if cur.dist < maxDistance then
            queue ++ ([(cur.x + 1, cur.y), (cur.x - 1, cur.y),
                       (cur.x, cur.y + 1), (cur.x, cur.y - 1)].filterMap
              fun n => if g.isValidTile n.1 n.2
                       then some ⟨n.1, n.2, cur.dist + 1⟩ else none)
          else queue
        g.bfsLoop startX startY maxDistance ignoreUnits fuel queue visited acc

/-- `IsometricGrid.calculateMovementRange(startX, startY, maxDistance,
ignoreUnits)`: BFS over 4-directional neighbors from the start cell. -/
def IsometricGrid.calculateMovementRange (g : IsometricGrid)
    (startX startY maxDistance : Int) (ignoreUnits : Bool) : List QueueEntry :=
  g.bfsLoop startX startY maxDistance ignoreUnits
    (4 * (g.gridWidth * g.gridHeight).toNat + 8)
    [⟨startX, startY, 0⟩] [] []

/-! ## Ability data (src/data/Abilities.js shape, consumed by the resolver)

String-valued fields that the source tests for JS truthiness are embedded as
`Option String` (`none` = `null`/absent); an absent `damageDice` behaves
exactly like `""` in `parseDiceNotation` (both are falsy), so that field stays
a plain `String` with `""` for absent.  `range` is a number or the sentinel
string `'speed'` (`basic_move`): a JS comparison `distance > 'speed'` is
`NaN`-false, so the sentinel is embedded as `none` with a never-failing range
check. -/

structure Requirements where
  minPrajna : Option Int
  minBala : Option Int
deriving Repr, DecidableEq

structure Ability where
  id : String
  name : String
  actionType : String
  targetType : String
  effectType : String
  damageDice : String
  damageAttribute : Option String
  range : Option Int
  effectRadius : Int
  resourceType : Option String
  resourceCost : Int
  statusEffect : Option String
  requirements : Option Requirements
deriving Repr, DecidableEq

/-- JS truthiness of an optional string (`null`/`undefined` and `''` are
falsy). -/
def truthyStr : Option String → Bool
  | none => false
  | some s => s ≠ ""

/-- JS truthiness of an optional number (`null`/`undefined` and `0` are
falsy). -/
def truthyInt : Option Int → Bool
  | none => false
  | some n => n ≠ 0

/-- `ability.resourceType || 'tapas'`. -/
def resourceTypeOrTapas (r : Option String) : String :=
  match r with
  | some s => if s = "" then "tapas" else s
  | none => "tapas"

/-- `distance > ability.range`, with the `'speed'` sentinel (`none`) making
the comparison `NaN`-false. -/
def rangeExceeded (distance : Int) (range : Option Int) : Bool :=
  match range with
  | some n => distance > n
  | none => false

/-! ## Ability resolver (src/systems/MissionManager.js `AbilitySystem`) -/

structure ValidationResult where
  valid : Bool
  message : String
deriving Repr, DecidableEq

/-- Targeting outcome.  The source stores a reference to the resolved target
participant; the embedding stores its id (ids are unique in any roster built
by the game, and theorems that rely on it say so). -/
structure TargetingResult where
  valid : Bool
  message : String
  target : Option String
  position : Option (Int × Int)
deriving Repr, DecidableEq

/-- The `primaryTarget` payload `{participantId?, x?, y?}`. -/
structure TargetInfo where
  participantId : Option String
  x : Option Int
  y : Option Int
deriving Repr, DecidableEq

/-- An `executeAbility` request (the destructured `secondaryTargets` is never
read by the source body and is omitted). -/
structure Request where
  actorId : String
  abilityId : String
  primaryTarget : TargetInfo
deriving Repr, DecidableEq

/-- One structured log record, per effect application. -/
inductive LogEvent where
  | damage (actor target ability : String) (amount : Int)
      (targetStatus : String) (remainingPrana : Int)
  | heal (actor target ability : String) (amount : Int)
      (targetStatus : String) (remainingPrana : Int)
  | teleport (actor ability : String) (oldX oldY newX newY : Int)
      (statusApplied : Option String)
  | statusApplied (actor target ability : String) (statusEffect : Option String)
  | error (message : String)
deriving Repr, DecidableEq

/-- The structured result of `executeAbility`. -/
structure ExecuteResult where
  success : Bool
  message : String
  logEvents : List LogEvent
  affectedParticipants : List String
deriving Repr, DecidableEq

/-- Look a participant up by id (the embedding of holding a JS reference to a
roster member: every access reads the current list). -/
def findP (ps : List SessionCharacter) (pid : String) : Option SessionCharacter :=
  ps.find? fun p => p.id = pid

/-- Rewrite the roster entry with the given id (the embedding of mutating the
referenced object in place; ids are unique in rosters built by the game). -/
def updateParticipant (ps : List SessionCharacter) (pid : String)
    (f : SessionCharacter → SessionCharacter) : List SessionCharacter :=
  ps.map fun p => if p.id = pid then f p else p

/-- `validateAbilityUse(actor, ability)`. -/
def validateAbilityUse (actor : SessionCharacter) (ability : Ability) : ValidationResult :=
  if actor.status = "downed" then
    ⟨false, actor.character.name ++ " is downed and cannot act."⟩
  else if ability.actionType = "action" ∧ ¬ actor.canTakeAction "action" then
    ⟨false, "No actions remaining this turn."⟩
  else if ability.actionType = "bonus_action" ∧ ¬ actor.canTakeAction "bonus_action" then
    ⟨false, "No bonus actions remaining this turn."⟩
  else if ability.actionType = "reaction" ∧ ¬ actor.canTakeAction "reaction" then
    ⟨false, "No reactions remaining this turn."⟩
  else if ability.actionType = "free" ∧ actor.status = "downed" then
    ⟨false, "Cannot take free actions while downed."⟩
  else if ability.resourceCost > 0 ∧ resourceTypeOrTapas ability.resourceType = "prana" ∧
      actor.currentPrana < ability.resourceCost then
    ⟨false, "Insufficient Prana (need " ++ toString ability.resourceCost ++
      ", have " ++ toString actor.currentPrana ++ ")."⟩
  else if ability.resourceCost > 0 ∧ resourceTypeOrTapas ability.resourceType = "tapas" ∧
      actor.currentTapas < ability.resourceCost then
    ⟨false, "Insufficient Tapas (need " ++ toString ability.resourceCost ++
      ", have " ++ toString actor.currentTapas ++ ")."⟩
  else if ability.resourceCost > 0 ∧ resourceTypeOrTapas ability.resourceType = "maya" ∧
      actor.currentMaya < ability.resourceCost then
    ⟨false, "Insufficient Maya (need " ++ toString ability.resourceCost ++
      ", have " ++ toString actor.currentMaya ++ ")."⟩
  else if ability.resourceCost > 0 ∧ resourceTypeOrTapas ability.resourceType = "speed" ∧
      actor.remainingSpeed < ability.resourceCost then
    ⟨false, "Insufficient movement (need " ++ toString ability.resourceCost ++
      ", have " ++ toString actor.remainingSpeed ++ ")."⟩
  else if ability.effectType = "teleport" ∧ ability.resourceType ≠ some "speed" ∧
      actor.remainingSpeed < 1 then
    ⟨false, "No movement speed remaining this turn."⟩
  else ⟨true, ""⟩

/-- `validateTargeting(actor, ability, targetInfo)`. -/
def validateTargeting (participants : List SessionCharacter)
    (actor : SessionCharacter) (ability : Ability) (targetInfo : TargetInfo) :
    TargetingResult :=
  if ability.targetType = "self" then
    ⟨true, "", some actor.id, none⟩
  else if ability.targetType = "ground" then
    match targetInfo.x, targetInfo.y with
    | some tx, some ty =>
        let distance := calculateDistance actor.x actor.y tx ty
        if rangeExceeded distance ability.range then
          ⟨false, "Target location out of range (max " ++ toString ability.range ++
            " squares).", none, none⟩
        else ⟨true, "", none, some (tx, ty)⟩
    | _, _ => ⟨false, "Ground target requires x, y coordinates.", none, none⟩
  else if ability.targetType = "enemy" ∨ ability.targetType = "ally" then
    match targetInfo.participantId with
    | none => ⟨false, "Must specify a target participant.", none, none⟩
    | some pid =>
        match findP participants pid with
        | none => ⟨false, "Target not found.", none, none⟩
        | some target =>
            let distance := calculateDistance actor.x actor.y target.x target.y
            if rangeExceeded distance ability.range then
              ⟨false, "Target out of range (max " ++ toString ability.range ++
                " squares).", none, none⟩
            else if ability.targetType = "enemy" ∧ actor.team = target.team then
              ⟨false, "Cannot target allies with this ability.", none, none⟩
            else if ability.targetType = "ally" ∧ actor.team ≠ target.team then
              ⟨false, "Can only target allies with this ability.", none, none⟩
            else ⟨true, "", some target.id, none⟩
  else ⟨false, "Unknown target type.", none, none⟩

/-- `validateCustomRequirements(actor, requirements)`: each floor applies only
when the configured minimum is JS-truthy (present and nonzero). -/
def validateCustomRequirements (actor : SessionCharacter) (reqs : Requirements) :
    ValidationResult :=
  if truthyInt reqs.minPrajna ∧ actor.character.prajna < reqs.minPrajna.getD 0 then
    ⟨false, "Requires Prajna " ++ toString (reqs.minPrajna.getD 0) ++ " or higher."⟩
  else if truthyInt reqs.minBala ∧ actor.character.bala < reqs.minBala.getD 0 then
    ⟨false, "Requires Bala " ++ toString (reqs.minBala.getD 0) ++ " or higher."⟩
  else ⟨true, ""⟩

/-- `consumeResources(actor, ability)`: spend the action-type counter, then
the resource cost (default pool `tapas`). -/
def consumeResources (actor : SessionCharacter) (ability : Ability) : SessionCharacter :=
  let actor :=
    if ability.actionType = "action" then actor.spendAction "action"
    else if ability.actionType = "bonus_action" then actor.spendAction "bonus_action"
    else if ability.actionType = "reaction" then actor.spendAction "reaction"
    else actor
  if ability.resourceCost > 0 then
    (actor.spendResource (resourceTypeOrTapas ability.resourceType) ability.resourceCost).2
  else actor

/-- The attribute modifier added to a damage/heal roll:
`if (ability.damageAttribute) getModifier(actor.character[attr])`. -/
def damageModifier (c : CharacterStats) (ability : Ability) : Int :=
  match ability.damageAttribute with
  | some a => if a = "" then 0 else getModifier (c.attrValue a)
  | none => 0

/-- `applyDamageEffect(actor, target, ability)`: roll, add the attribute
modifier, apply through `takeDamage`, accumulate the actor's `damageDealt`,
and log.  The participant lookups cannot fail when invoked from
`executeAbility` (both ids come from the roster); the impossible branch
returns the state unchanged. -/
def applyDamageEffect (ps : List SessionCharacter) (actorId targetId : String)
    (ability : Ability) (rng : Nat → Int) (k : Nat) :
    LogEvent × List SessionCharacter × Nat :=
  match findP ps actorId, findP ps targetId with
  | some actor, some target =>
      let diceSpec := parseDiceNotation ability.damageDice
      let (roll, k') := rollDice diceSpec rng k
      let totalDamage := roll + damageModifier actor.character ability
      let (actualDamage, target') := target.takeDamage totalDamage
      let ps := updateParticipant ps targetId fun _ => target'
      let ps := updateParticipant ps actorId fun a =>
        { a with damageDealt := a.damageDealt + actualDamage }
      (LogEvent.damage actor.character.name target.character.name ability.name
        actualDamage ((findP ps targetId).map SessionCharacter.status |>.getD "")
        ((findP ps targetId).map SessionCharacter.currentPrana |>.getD 0),
       ps, k')
  | _, _ => (LogEvent.error "unreachable", ps, k)

/-- `applyHealEffect(actor, target, ability)`: same roll shape, applied
through `heal`. -/
def applyHealEffect (ps : List SessionCharacter) (actorId targetId : String)
    (ability : Ability) (rng : Nat → Int) (k : Nat) :
    LogEvent × List SessionCharacter × Nat :=
  match findP ps actorId, findP ps targetId with
  | some actor, some target =>
      let diceSpec := parseDiceNotation ability.damageDice
      let (roll, k') := rollDice diceSpec rng k
      let totalHealing := roll + damageModifier actor.character ability
      let (actualHealing, target') := target.heal totalHealing
      let ps := updateParticipant ps targetId fun _ => target'
      (LogEvent.heal actor.character.name target.character.name ability.name
        actualHealing ((findP ps targetId).map SessionCharacter.status |>.getD "")
        ((findP ps targetId).map SessionCharacter.currentPrana |>.getD 0),
       ps, k')
  | _, _ => (LogEvent.error "unreachable", ps, k)

/-- `applyTeleportEffect(actor, targetPosition, ability)`: `none` embeds the
JS `TypeError` of reading `targetPosition.x` when the resolved position is
`null` (an `enemy`/`ally`-targeted teleport).  Otherwise: refuse with an
`error` log event when a speed-funded move exceeds the remaining speed; else
move, deduct speed if speed-funded, optionally self-apply a status effect. -/
def applyTeleportEffect (ps : List SessionCharacter) (actorId : String)
    (targetPosition : Option (Int × Int)) (ability : Ability) :
    Option (LogEvent × List SessionCharacter) :=
  match targetPosition with
  | none => none
  | some (tx, ty) =>
      match findP ps actorId with
      | none => none
      | some actor =>
          let oldPos := (actor.x, actor.y)
          let distance := calculateDistance actor.x actor.y tx ty
          if ability.resourceType = some "speed" ∧ distance > actor.remainingSpeed then
            some (LogEvent.error ("Cannot move " ++ toString distance ++
              " squares with only " ++ toString actor.remainingSpeed ++
              " speed remaining."), ps)
          else
            let ps := updateParticipant ps actorId fun a => (a.moveTo tx ty 0).2
            let ps :=
              if ability.resourceType = some "speed" then
                updateParticipant ps actorId fun a => (a.spendResource "speed" distance).2
              else ps
            let ps :=
              if truthyStr ability.statusEffect then
                updateParticipant ps actorId fun a =>
                  a.addStatusEffect (ability.statusEffect.getD "") 1
              else ps
            let newPos := ((findP ps actorId).map SessionCharacter.x |>.getD 0,
                           (findP ps actorId).map SessionCharacter.y |>.getD 0)
            some (LogEvent.teleport actor.character.name ability.name
              oldPos.1 oldPos.2 newPos.1 newPos.2
              (if truthyStr ability.statusEffect then ability.statusEffect else none),
             ps)

/-- `getParticipantsInRadius(centerX, centerY, radius)`: every participant
within Chebyshev `radius` of the center whose status is not `downed`. -/
def getParticipantsInRadius (ps : List SessionCharacter)
    (centerX centerY radius : Int) : List SessionCharacter :=
  ps.filter fun p =>
    calculateDistance centerX centerY p.x p.y ≤ radius && p.status ≠ "downed"

/-- `applyStatusEffect(actor, target, ability)`. -/
def applyStatusEffect (ps : List SessionCharacter) (actorId targetId : String)
    (ability : Ability) : LogEvent × List SessionCharacter :=
  let ps' :=
    if truthyStr ability.statusEffect then
      updateParticipant ps targetId fun t =>
        t.addStatusEffect (ability.statusEffect.getD "") 1
    else ps
  ((match findP ps actorId, findP ps targetId with
    | some actor, some target =>
        LogEvent.statusApplied actor.character.name target.character.name
          ability.name ability.statusEffect
    | _, _ => LogEvent.error "unreachable"),
   ps')

/-- The `for (const target of affected)` loop shared by the ground and
enemy/ally branches of `executeAbility` (step 6): apply the ability's effect
type to each chosen target in order, accumulating log events and threading the
roll stream. -/
def applyEffectList (rng : Nat → Int) (ps : List SessionCharacter)
    (actorId : String) (ability : Ability) (targetIds : List String) :
    List LogEvent × List SessionCharacter × Nat :=
  targetIds.foldl
    (fun acc tid =>
      let (evs, ps, k) := acc
      if ability.effectType = "damage" then
        let (ev, ps', k') := applyDamageEffect ps actorId tid ability rng k
        (evs ++ [ev], ps', k')
      else if ability.effectType = "heal" then
        let (ev, ps', k') := applyHealEffect ps actorId tid ability rng k
        (evs ++ [ev], ps', k')
      else if ability.effectType = "status" then
        let (ev, ps') := applyStatusEffect ps actorId tid ability
        (evs ++ [ev], ps', k)
      else acc)
    ([], ps, 0)

/-- Step 6 of `executeAbility`: the effect-application branching on
target-type and effect-type, in source order (`self`, then `teleport`, then
`ground`, then `enemy`/`ally`).  Returns the log events, affected ids and new
roster; `none` embeds a JS `TypeError` (teleport with a `null` resolved
position). -/
def applyEffects (rng : Nat → Int) (ps : List SessionCharacter) (actorId : String)
    (ability : Ability) (tv : TargetingResult) :
    Option (List LogEvent × List String × List SessionCharacter) :=
  if ability.targetType = "self" then
    if ability.effectType = "damage" then
      let (ev, ps', _) := applyDamageEffect ps actorId actorId ability rng 0
      some ([ev], [actorId], ps')
    else if ability.effectType = "heal" then
      let (ev, ps', _) := applyHealEffect ps actorId actorId ability rng 0
      some ([ev], [actorId], ps')
    else some ([], [actorId], ps)
  else if ability.effectType = "teleport" then
    (applyTeleportEffect ps actorId tv.position ability).map
      fun r => ([r.1], [actorId], r.2)
  else if ability.targetType = "ground" then
    match tv.position with
    | none => none
    | some (gx, gy) =>
        let affected := getParticipantsInRadius ps gx gy ability.effectRadius
        let affectedIds := affected.map SessionCharacter.id
        let (evs, ps', _) := applyEffectList rng ps actorId ability affectedIds
        some (evs, affectedIds, ps')
  else if ability.targetType = "enemy" ∨ ability.targetType = "ally" then
    match tv.target with
    | none => none
    | some tid =>
        if ability.effectRadius > 0 then
          match findP ps tid with
          | none => none
          | some target =>
              let affected :=
                getParticipantsInRadius ps target.x target.y ability.effectRadius
              let affectedIds := affected.map SessionCharacter.id
              let (evs, ps', _) := applyEffectList rng ps actorId ability affectedIds
              some (evs, affectedIds, ps')
        else
          let (evs, ps', _) := applyEffectList rng ps actorId ability [tid]
          some (evs, [tid], ps')
  else some ([], [], ps)

/-- A failed `executeAbility` result. -/
def failRes (msg : String) : ExecuteResult :=
  ⟨false, msg, [], []⟩

/-- `executeAbility(request)` — the main resolution pipeline.  Step 7 (an
`ability_used` entry appended to the attached session's log, when one is
attached) touches only that log, never a participant, and is omitted.
`none` embeds a thrown `TypeError` (only reachable for a teleport effect
whose targeting resolved no position). -/
def executeAbility (abilities : List Ability) (rng : Nat → Int) (req : Request)
    (ps : List SessionCharacter) : Option (ExecuteResult × List SessionCharacter) :=
  match findP ps req.actorId with
  | none => some (failRes "Actor not found.", ps)
  | some actor =>
    match abilities.find? (fun a => a.id = req.abilityId) with
    | none => some (failRes "Ability not found.", ps)
    | some ability =>
      let useValidation := validateAbilityUse actor ability
      if ¬ useValidation.valid then some (failRes useValidation.message, ps)
      else
        let targetValidation := validateTargeting ps actor ability req.primaryTarget
        if ¬ targetValidation.valid then some (failRes targetValidation.message, ps)
        else
          let reqValidation :=
            match ability.requirements with
            | some reqs => validateCustomRequirements actor reqs
            | none => ⟨true, ""⟩
          if ¬ reqValidation.valid then some (failRes reqValidation.message, ps)
          else
            (applyEffects rng
              (if ¬ (ability.effectType = "teleport" ∧ ability.resourceType = some "speed")
               then updateParticipant ps actor.id fun a => consumeResources a ability
               else ps)
              actor.id ability targetValidation).map fun r =>
              (⟨true, actor.character.name ++ " used " ++ ability.name ++ "!",
                r.1, r.2.1⟩, r.2.2)

/-! ## Spec-side predicates and concrete instances used in the theorems -/

/-- The empty, fully walkable 10×10 isometric board of the spec's
movement-range scenario. -/
def emptyBoard10 : IsometricGrid :=
  ⟨10, 10, fun _ _ => ⟨true, false⟩⟩

/-- All cells of a 10×10 board. -/
def allCells10 : List (Int × Int) :=
  (intRange 0 9).flatMap fun x => (intRange 0 9).map fun y => (x, y)

/-- A fresh level-1 player actor with id "A" at the origin. -/
def chA : SessionCharacter :=
  mkSessionCharacter (mkCharacterStats "Asha" 1 10 10 10 10 10 10) "A" "player" 0 0 0 6

/-- A fresh enemy actor with id "B" at (5,5). -/
def chB : SessionCharacter :=
  mkSessionCharacter (mkCharacterStats "Bala" 1 10 10 10 10 10 10) "B" "enemy" 5 5 0 6

/-- A fresh enemy actor with id "C" at (9,9). -/
def chC : SessionCharacter :=
  mkSessionCharacter (mkCharacterStats "Charu" 1 10 10 10 10 10 10) "C" "enemy" 9 9 0 6

/-- An enemy at (5,6) knocked to 0 Prana (status `downed`) by damage. -/
def chD : SessionCharacter :=
  ((mkSessionCharacter (mkCharacterStats "Daya" 1 10 10 10 10 10 10)
    "D" "enemy" 5 6 0 6).takeDamage 100).2

/-- A `scatter_shot`-style ground ability: radius-2 damage at range 8. -/
def scatterAb : Ability :=
  ⟨"scatter", "Scatter Shot", "action", "ground", "damage", "1d6",
   some "dakshata", some 8, 2, some "tapas", 2, none, none⟩

/-- A `basic_move`-style ability: ground-targeted teleport (not speed-funded
here, range 10). -/
def mvAb : Ability :=
  ⟨"mv", "Move", "free", "ground", "teleport", "", none, some 10, 0, none, 0,
   none, none⟩

/-- A `blowpipe_shot`-style single-target enemy damage ability (radius 0,
range 8). -/
def strikeAb : Ability :=
  ⟨"strike", "Blowpipe Shot", "action", "enemy", "damage", "1d8",
   some "dakshata", some 8, 0, none, 0, none, none⟩

/-- Every resource pool of a participant is at or above 0, each of the three
regenerating pools is at or below its ceiling, and remaining speed is
non-negative. -/
def resourcesInBounds (p : SessionCharacter) : Prop :=
  0 ≤ p.currentPrana ∧ p.currentPrana ≤ p.character.maxPrana ∧
  0 ≤ p.currentTapas ∧ p.currentTapas ≤ p.character.maxTapas ∧
  0 ≤ p.currentMaya ∧ p.currentMaya ≤ p.character.maxMaya ∧
  0 ≤ p.remainingSpeed

instance (p : SessionCharacter) : Decidable (resourcesInBounds p) := by
  unfold resourcesInBounds
  exact inferInstance

/-- Lower bound of an ability's damage/heal total against a participant:
every die shows at least 1, so the total is at least
`dice + bonus + modifier`. -/
def dmgFloor (ab : Ability) (p : SessionCharacter) : Int :=
  ((parseDiceNotation ab.damageDice).dice : Int) +
  ((parseDiceNotation ab.damageDice).bonus : Int) +
  damageModifier p.character ab

/-- Invariant carried through the effect stage: the participant's resources
are in bounds and the ability's worst-case damage/heal total against this
participant is non-negative. -/
def okP (ab : Ability) (p : SessionCharacter) : Prop :=
  resourcesInBounds p ∧ 0 ≤ dmgFloor ab p

/-- A level-1 actor with Bala 8 (modifier −1). -/
def chW : SessionCharacter :=
  mkSessionCharacter (mkCharacterStats "Weak" 1 8 10 10 10 10 10) "W" "player" 0 0 0 6

/-- A self-targeted damage ability with no dice and a Bala-scaled bonus: for a
Bala-8 actor the damage total is the negative modifier −1. -/
def selfHarmAb : Ability :=
  ⟨"sh", "Reckless Lunge", "action", "self", "damage", "", some "bala",
   some 0, 0, none, 0, none, none⟩

/-- The catalog's `quick_movement` ability: `bonus_action` ground teleport
funded by `speed` (range 6, no status effect). -/
def qmAb : Ability :=
  ⟨"quick_movement", "Quick Movement", "bonus_action", "ground", "teleport", "",
   none, some 6, 0, some "speed", 0, none, none⟩

/-! ## Verified properties -/

/-- C6 — counterexample.  The claim's precondition `current + k ≤ ceiling`
does not make the spend/restore round trip an identity: with `currentTapas =
0`, `maxTapas = 12` and `k = 5` the precondition holds, the spend silently
fails (insufficient Tapas), but the restore still adds 5. -/
theorem spend_restore_tapas_not_roundtrip :
    ((((mkSessionCharacter (mkCharacterStats "Kona" 1 10 10 10 10 10 10)
        "p1" "player" 0 0 0 6).spendResource "tapas" 12).2).currentTapas = 0 ∧
     (((mkSessionCharacter (mkCharacterStats "Kona" 1 10 10 10 10 10 10)
        "p1" "player" 0 0 0 6).spendResource "tapas" 12).2).character.maxTapas = 12 ∧
     (((((mkSessionCharacter (mkCharacterStats "Kona" 1 10 10 10 10 10 10)
        "p1" "player" 0 0 0 6).spendResource "tapas" 12).2).spendResource
          "tapas" 5).2.restoreResource "tapas" 5).currentTapas = 5) := by
  decide

/-- C6 — amended: `spendResource('tapas', k)` followed by
`restoreResource('tapas', k)` returns `currentTapas` to its prior value when
additionally `0 ≤ k ≤ currentTapas` (so the spend actually succeeds) and
`currentTapas + k` does not exceed the ceiling. -/
theorem spend_restore_tapas_roundtrip (c : SessionCharacter) (k : Int)
    (hk : 0 ≤ k) (hle : k ≤ c.currentTapas)
    (hceil : c.currentTapas + k ≤ c.character.maxTapas) :
    (((c.spendResource "tapas" k).2).restoreResource "tapas" k).currentTapas
      = c.currentTapas := by
  have hspend : c.spendResource "tapas" k =
      (if c.currentTapas ≥ k then (true, { c with currentTapas := c.currentTapas - k })
       else (false, c)) := rfl
  have hrestore : ∀ d : SessionCharacter, (d.restoreResource "tapas" k).currentTapas
      = min (d.currentTapas + k) d.character.maxTapas := fun d => rfl
  rw [hspend, if_pos hle]
  rw [hrestore]
  simp only
  omega

/-- C6 — witness for `spend_restore_tapas_roundtrip`. -/
theorem spend_restore_tapas_roundtrip_witness :
    (((((mkSessionCharacter (mkCharacterStats "Kona" 1 10 10 10 10 10 10)
        "p1" "player" 0 0 0 6).spendResource "tapas" 6).2.spendResource
          "tapas" 4).2).restoreResource "tapas" 4).currentTapas
      = ((mkSessionCharacter (mkCharacterStats "Kona" 1 10 10 10 10 10 10)
          "p1" "player" 0 0 0 6).spendResource "tapas" 6).2.currentTapas :=
  spend_restore_tapas_roundtrip _ 4 (by decide) (by decide) (by decide)

/-- C3 — counterexample.  `spendResource('prana', k)` can bring Prana to 0
without flipping the lifecycle status to `downed`: a fresh actor with 50/50
Prana that spends 50 Prana ends at 0 Prana with status still `active`. -/
theorem spendResource_prana_zero_keeps_active :
    ((((mkSessionCharacter (mkCharacterStats "Kona" 1 10 10 10 10 10 10)
        "p1" "player" 0 0 0 6).spendResource "prana" 50).2).currentPrana = 0 ∧
     (((mkSessionCharacter (mkCharacterStats "Kona" 1 10 10 10 10 10 10)
        "p1" "player" 0 0 0 6).spendResource "prana" 50).2).status = "active") := by
  decide

/-- C3 — amended: the downed-iff-zero-Prana relation is maintained by
`takeDamage` and `heal` for non-negative amounts (reaching 0 via `takeDamage`
downs the actor, healing above 0 while downed revives it), but not by
`spendResource('prana', ·)`, which can zero Prana without downing
(see `spendResource_prana_zero_keeps_active`). -/
theorem takeDamage_heal_downed_iff_zero (c : SessionCharacter) (amt : Int)
    (hinv : c.status = "downed" ↔ c.currentPrana = 0)
    (h0 : 0 ≤ c.currentPrana) (hmax : c.currentPrana ≤ c.character.maxPrana)
    (hamt : 0 ≤ amt) :
    ((c.takeDamage amt).2.status = "downed" ↔ (c.takeDamage amt).2.currentPrana = 0) ∧
    ((c.heal amt).2.status = "downed" ↔ (c.heal amt).2.currentPrana = 0) := by
  constructor
  · simp only [SessionCharacter.takeDamage]
    split_ifs with h
    · simp only [true_iff]
      omega
    · simp only at h ⊢
      rw [hinv]
      omega
  · simp only [SessionCharacter.heal]
    split_ifs with h
    · obtain ⟨hd, hpos⟩ := h
      simp only
      constructor
      · intro hcon
        exact absurd hcon (by decide)
      · intro hzero
        omega
    · simp only
      by_cases hd : c.status = "downed"
      · have hz := hinv.mp hd
        simp only [hd, true_iff]
        have hnpos : ¬ (min (c.currentPrana + amt) c.character.maxPrana > 0) :=
          fun hpos => h ⟨hd, hpos⟩
        omega
      · have hne : c.currentPrana ≠ 0 := fun hz => hd (hinv.mpr hz)
        constructor
        · intro hcon
          exact absurd hcon hd
        · intro hzero
          exfalso
          omega

/-- C3 — witness for `takeDamage_heal_downed_iff_zero`. -/
theorem takeDamage_heal_downed_iff_zero_witness :
    (((mkSessionCharacter (mkCharacterStats "Kona" 1 10 10 10 10 10 10)
        "p1" "player" 0 0 0 6).takeDamage 7).2.status = "downed" ↔
     ((mkSessionCharacter (mkCharacterStats "Kona" 1 10 10 10 10 10 10)
        "p1" "player" 0 0 0 6).takeDamage 7).2.currentPrana = 0) ∧
    (((mkSessionCharacter (mkCharacterStats "Kona" 1 10 10 10 10 10 10)
        "p1" "player" 0 0 0 6).heal 7).2.status = "downed" ↔
     ((mkSessionCharacter (mkCharacterStats "Kona" 1 10 10 10 10 10 10)
        "p1" "player" 0 0 0 6).heal 7).2.currentPrana = 0) :=
  takeDamage_heal_downed_iff_zero _ 7 (by decide) (by decide) (by decide) (by decide)

/-- Before the turn order is exhausted, `nextTurn` only advances the index. -/
theorem nextTurn_no_wrap (s : GameSession)
    (h : s.currentTurnIndex + 1 < s.turnOrder.length) :
    s.nextTurn = { s with currentTurnIndex := s.currentTurnIndex + 1 } := by
  simp only [GameSession.nextTurn]
  rw [if_neg]
  omega

/-- Iterating `nextTurn` from index 0 stays below the wrap point. -/
theorem nextTurn_iterate_lt (s : GameSession) (h0 : s.currentTurnIndex = 0) :
    ∀ k, k < s.turnOrder.length →
      GameSession.nextTurn^[k] s = { s with currentTurnIndex := k } := by
  intro k
  induction k with
  | zero =>
      intro _
      simp only [Function.iterate_zero_apply]
      rw [← h0]
  | succ k ih =>
      intro hk
      rw [Function.iterate_succ_apply', ih (by omega)]
      rw [nextTurn_no_wrap]
      exact hk

/-- C8 — `nextTurn()` called `length(turnOrder)` times from turn index 0
returns the index to 0, increments the round by exactly 1, and at the
wraparound resets every participant's per-turn state: actions back to 1,
bonus actions to 1, reactions to 4, movement restored (to the baseline 6),
and status-effect durations decremented with non-positive ones purged
(`SessionCharacter.reset`). -/
theorem nextTurn_full_cycle (s : GameSession) (h0 : s.currentTurnIndex = 0)
    (hne : s.turnOrder ≠ []) :
    (GameSession.nextTurn^[s.turnOrder.length] s).currentTurnIndex = 0 ∧
    (GameSession.nextTurn^[s.turnOrder.length] s).round = s.round + 1 ∧
    (GameSession.nextTurn^[s.turnOrder.length] s).participants
      = s.participants.map SessionCharacter.reset ∧
    ∀ p' ∈ (GameSession.nextTurn^[s.turnOrder.length] s).participants,
      p'.actions = 1 ∧ p'.bonusActions = 1 ∧ p'.reactions = 4 ∧
      p'.remainingSpeed = 6 ∧
      p'.statusEffects.all fun e => e.duration > 0 := by
  have hlen : 0 < s.turnOrder.length := List.length_pos.mpr hne
  have hstep : GameSession.nextTurn^[s.turnOrder.length] s
      = GameSession.nextTurn { s with currentTurnIndex := s.turnOrder.length - 1 } := by
    have hlen1 : s.turnOrder.length = (s.turnOrder.length - 1) + 1 := by omega
    conv_lhs => rw [hlen1]
    rw [Function.iterate_succ_apply', nextTurn_iterate_lt s h0 _ (by omega)]
  have hwrap : GameSession.nextTurn { s with currentTurnIndex := s.turnOrder.length - 1 }
      = { s with currentTurnIndex := 0, round := s.round + 1,
                 participants := s.participants.map SessionCharacter.reset } := by
    simp only [GameSession.nextTurn]
    rw [if_pos]
    omega
  rw [hstep, hwrap]
  refine ⟨rfl, rfl, rfl, ?_⟩
  intro p' hp'
  simp only [List.mem_map] at hp'
  obtain ⟨p, _, rfl⟩ := hp'
  refine ⟨rfl, rfl, rfl, rfl, ?_⟩
  simp only [SessionCharacter.reset, List.all_eq_true, List.mem_filterMap]
  rintro e ⟨e0, _, he⟩
  split at he
  · cases he
    simpa using by omega
  · cases he

/-- C8 — witness for `nextTurn_full_cycle`. -/
theorem nextTurn_full_cycle_witness :
    (GameSession.nextTurn^[(GameSession.mk "s1" "Combat Session"
        [mkSessionCharacter (mkCharacterStats "Kona" 1 10 10 10 10 10 10)
          "p1" "player" 0 0 0 6,
         mkSessionCharacter (mkCharacterStats "Lachi" 1 10 14 10 10 10 10)
          "p2" "enemy" 3 3 0 6]
        ["p1", "p2"] 0 0 20 15 true).turnOrder.length]
      (GameSession.mk "s1" "Combat Session"
        [mkSessionCharacter (mkCharacterStats "Kona" 1 10 10 10 10 10 10)
          "p1" "player" 0 0 0 6,
         mkSessionCharacter (mkCharacterStats "Lachi" 1 10 14 10 10 10 10)
          "p2" "enemy" 3 3 0 6]
        ["p1", "p2"] 0 0 20 15 true)).round
      = 0 + 1 := by
  have h := nextTurn_full_cycle
    (GameSession.mk "s1" "Combat Session"
      [mkSessionCharacter (mkCharacterStats "Kona" 1 10 10 10 10 10 10)
        "p1" "player" 0 0 0 6,
       mkSessionCharacter (mkCharacterStats "Lachi" 1 10 14 10 10 10 10)
        "p2" "enemy" 3 3 0 6]
      ["p1", "p2"] 0 0 20 15 true) rfl (by decide)
  exact h.2.1

/-- `takeDigits` of an all-digit list consumes everything. -/
theorem takeDigits_all (a : List Char) (h : ∀ c ∈ a, c.isDigit) :
    takeDigits a = (a, []) := by
  induction a with
  | nil => rfl
  | cons c cs ih =>
      have h1 : c.isDigit := h c (List.mem_cons_self c cs)
      have h2 := ih fun x hx => h x (List.mem_cons_of_mem c hx)
      simp [takeDigits, h1, h2]

/-- `takeDigits` of an all-digit run followed by a non-digit stops at the
non-digit. -/
theorem takeDigits_append (a : List Char) (x : Char) (r : List Char)
    (h : ∀ c ∈ a, c.isDigit) (hx : ¬ x.isDigit) :
    takeDigits (a ++ x :: r) = (a, x :: r) := by
  induction a with
  | nil => simp [takeDigits, hx]
  | cons c cs ih =>
      have h1 : c.isDigit := h c (List.mem_cons_self c cs)
      have h2 := ih fun y hy => h y (List.mem_cons_of_mem c hy)
      simp [takeDigits, h1, h2]

/-- The regex matcher at the start of `NdM`-shaped input. -/
theorem matchDiceAt_ndm (a b : List Char) (ha : a ≠ []) (hb : b ≠ [])
    (hda : ∀ c ∈ a, c.isDigit) (hdb : ∀ c ∈ b, c.isDigit) :
    matchDiceAt (a ++ 'd' :: b) = some (digitsToNat a, digitsToNat b, 0) := by
  have ha' : a.isEmpty = false := by
    cases a with
    | nil => exact absurd rfl ha
    | cons x xs => rfl
  have hb' : b.isEmpty = false := by
    cases b with
    | nil => exact absurd rfl hb
    | cons x xs => rfl
  simp only [matchDiceAt, takeDigits_append a 'd' b hda (by decide), ha',
    takeDigits_all b hdb, hb']
  cases b with
  | nil => exact absurd rfl hb
  | cons b0 bs => rfl

/-- The regex matcher at the start of `NdM+B`-shaped input. -/
theorem matchDiceAt_ndmb (a b c : List Char) (ha : a ≠ []) (hb : b ≠ []) (hc : c ≠ [])
    (hda : ∀ x ∈ a, x.isDigit) (hdb : ∀ x ∈ b, x.isDigit) (hdc : ∀ x ∈ c, x.isDigit) :
    matchDiceAt (a ++ 'd' :: (b ++ '+' :: c)) =
      some (digitsToNat a, digitsToNat b, digitsToNat c) := by
  have ha' : a.isEmpty = false := by
    cases a with
    | nil => exact absurd rfl ha
    | cons x xs => rfl
  have hb' : b.isEmpty = false := by
    cases b with
    | nil => exact absurd rfl hb
    | cons x xs => rfl
  have hc' : c.isEmpty = false := by
    cases c with
    | nil => exact absurd rfl hc
    | cons x xs => rfl
  simp only [matchDiceAt, takeDigits_append a 'd' (b ++ '+' :: c) hda (by decide),
    ha', takeDigits_append b '+' c hdb (by decide), hb',
    takeDigits_all c hdc, hc']
  simp

/-- A successful match at the head is the leftmost match. -/
theorem findDiceMatch_head (x : Char) (xs : List Char) (r : Nat × Nat × Nat)
    (h : matchDiceAt (x :: xs) = some r) :
    findDiceMatch (x :: xs) = some r := by
  simp only [findDiceMatch, h]

/-- Parsing an `NdM`-shaped string. -/
theorem parseDiceNotation_ndm (a b : List Char) (ha : a ≠ []) (hb : b ≠ [])
    (hda : ∀ c ∈ a, c.isDigit) (hdb : ∀ c ∈ b, c.isDigit) :
    parseDiceNotation (String.mk (a ++ 'd' :: b))
      = ⟨digitsToNat a, digitsToNat b, 0⟩ := by
  cases a with
  | nil => exact absurd rfl ha
  | cons a0 as =>
      have hf : findDiceMatch (a0 :: (as ++ 'd' :: b))
          = some (digitsToNat (a0 :: as), digitsToNat b, 0) :=
        findDiceMatch_head _ _ _ (matchDiceAt_ndm (a0 :: as) b ha hb hda hdb)
      simp only [parseDiceNotation, List.cons_append, List.isEmpty_cons,
        Bool.false_eq_true, if_false, hf]

/-- Parsing an `NdM+B`-shaped string. -/
theorem parseDiceNotation_ndmb (a b c : List Char) (ha : a ≠ []) (hb : b ≠ [])
    (hc : c ≠ []) (hda : ∀ x ∈ a, x.isDigit) (hdb : ∀ x ∈ b, x.isDigit)
    (hdc : ∀ x ∈ c, x.isDigit) :
    parseDiceNotation (String.mk (a ++ 'd' :: (b ++ '+' :: c)))
      = ⟨digitsToNat a, digitsToNat b, digitsToNat c⟩ := by
  cases a with
  | nil => exact absurd rfl ha
  | cons a0 as =>
      have hf : findDiceMatch (a0 :: (as ++ 'd' :: (b ++ '+' :: c)))
          = some (digitsToNat (a0 :: as), digitsToNat b, digitsToNat c) :=
        findDiceMatch_head _ _ _
          (matchDiceAt_ndmb (a0 :: as) b c ha hb hc hda hdb hdc)
      simp only [parseDiceNotation, List.cons_append, List.isEmpty_cons,
        Bool.false_eq_true, if_false, hf]

/-- Bounds for the roll when every roll lies in `[1, sides]`. -/
theorem rollDice_bounds (spec : DiceSpec) (rng : Nat → Int) (k : Nat)
    (h : ∀ i, 1 ≤ rng i ∧ rng i ≤ (spec.sides : Int)) :
    (spec.dice : Int) + spec.bonus ≤ (rollDice spec rng k).1 ∧
      (rollDice spec rng k).1 ≤ (spec.dice : Int) * spec.sides + spec.bonus := by
  have key : ∀ (n : Nat) (init : Int),
      init + n ≤ (List.range n).foldl (fun acc i => acc + rng (k + i)) init ∧
      (List.range n).foldl (fun acc i => acc + rng (k + i)) init
        ≤ init + (n : Int) * spec.sides := by
    intro n
    induction n with
    | zero => intro init; simp
    | succ n ih =>
        intro init
        rw [List.range_succ]
        simp only [List.foldl_append, List.foldl_cons, List.foldl_nil]
        have hr := h (k + n)
        have h1 := (ih init).1
        have h2 := (ih init).2
        constructor
        · push_cast
          omega
        · push_cast
          nlinarith [hr.1, hr.2]
  have hk := key spec.dice (spec.bonus : Int)
  simp only [rollDice]
  constructor
  · have := hk.1
    omega
  · have := hk.2
    nlinarith

/-- C9 — dice notation: `NdM` and `NdM+B` parse to (count, sides, bonus);
a roll sums `count` integers from `[1, sides]` plus the bonus (so lies in
`[count + bonus, count·sides + bonus]`); an empty or unmatched string parses
to zero dice, and rolling the zero spec deterministically totals 0. -/
theorem diceNotation_spec :
    (∀ a b : List Char, a ≠ [] → b ≠ [] →
      (∀ c ∈ a, c.isDigit) → (∀ c ∈ b, c.isDigit) →
      parseDiceNotation (String.mk (a ++ 'd' :: b))
        = ⟨digitsToNat a, digitsToNat b, 0⟩) ∧
    (∀ a b c : List Char, a ≠ [] → b ≠ [] → c ≠ [] →
      (∀ x ∈ a, x.isDigit) → (∀ x ∈ b, x.isDigit) → (∀ x ∈ c, x.isDigit) →
      parseDiceNotation (String.mk (a ++ 'd' :: (b ++ '+' :: c)))
        = ⟨digitsToNat a, digitsToNat b, digitsToNat c⟩) ∧
    (∀ (spec : DiceSpec) (rng : Nat → Int) (k : Nat),
      (∀ i, 1 ≤ rng i ∧ rng i ≤ (spec.sides : Int)) →
      (spec.dice : Int) + spec.bonus ≤ (rollDice spec rng k).1 ∧
        (rollDice spec rng k).1 ≤ (spec.dice : Int) * spec.sides + spec.bonus) ∧
    (∀ s : String, findDiceMatch s.data = none → parseDiceNotation s = ⟨0, 0, 0⟩) ∧
    (parseDiceNotation "" = ⟨0, 0, 0⟩) ∧
    (∀ (rng : Nat → Int) (k : Nat), (rollDice ⟨0, 0, 0⟩ rng k).1 = 0) := by
  refine ⟨parseDiceNotation_ndm, parseDiceNotation_ndmb, rollDice_bounds, ?_,
    by decide, fun rng k => rfl⟩
  intro s hs
  simp only [parseDiceNotation, hs]
  split_ifs <;> rfl

/-- C9 — witness for `diceNotation_spec`: `"2d6"` parses to (2, 6, 0),
`"1d8+3"` to (1, 8, 3), `"xyz"` has no match and parses to the zero spec,
and a roll of the zero spec is 0 with any roll stream. -/
theorem diceNotation_spec_witness :
    parseDiceNotation (String.mk (['2'] ++ 'd' :: ['6'])) = ⟨2, 6, 0⟩ ∧
    parseDiceNotation (String.mk (['1'] ++ 'd' :: (['8'] ++ '+' :: ['3'])))
      = ⟨1, 8, 3⟩ ∧
    ((3 : Int) + 4 ≤ (rollDice ⟨3, 5, 4⟩ (fun _ => 2) 0).1 ∧
      (rollDice ⟨3, 5, 4⟩ (fun _ => 2) 0).1 ≤ (3 : Int) * 5 + 4) ∧
    parseDiceNotation "xyz" = ⟨0, 0, 0⟩ ∧
    (rollDice ⟨0, 0, 0⟩ (fun _ => 2) 0).1 = 0 := by
  obtain ⟨h1, h2, h3, h4, _, h6⟩ := diceNotation_spec
  exact ⟨by
      have := h1 ['2'] ['6'] (by decide) (by decide) (by decide) (by decide)
      simpa using this,
    by
      have := h2 ['1'] ['8'] ['3'] (by decide) (by decide) (by decide)
        (by decide) (by decide) (by decide)
      simpa using this,
    h3 ⟨3, 5, 4⟩ (fun _ => 2) 0 (fun i => by norm_num),
    h4 "xyz" (by decide),
    h6 (fun _ => 2) 0⟩

/-- Membership in the inclusive integer range. -/
theorem mem_intRange (lo hi t : Int) : t ∈ intRange lo hi ↔ lo ≤ t ∧ t ≤ hi := by
  unfold intRange
  rw [List.mem_map]
  constructor
  · rintro ⟨i, hlt, rfl⟩
    rw [List.mem_range] at hlt
    omega
  · rintro ⟨h1, h2⟩
    refine ⟨(t - lo).toNat, ?_, by omega⟩
    rw [List.mem_range]
    omega

/-- Exact membership characterization of `GridSystem.calculateMovementRange`:
in-Manhattan-diamond (radius `range`, start excluded), in bounds, and
unoccupied. -/
theorem gridSystem_mem_movementRange (g : GridSystem) (x y r a b : Int) :
    (a, b) ∈ g.calculateMovementRange x y r ↔
      |a - x| + |b - y| ≤ r ∧ 0 < |a - x| + |b - y| ∧
      g.isValidPosition a b = true ∧ g.isOccupied a b = false := by
  simp only [GridSystem.calculateMovementRange, List.mem_flatMap, List.mem_filterMap,
    mem_intRange]
  constructor
  · rintro ⟨dx, hdx, dy, hdy, hsome⟩
    split_ifs at hsome with hcond
    · simp only [Option.some.injEq, Prod.mk.injEq] at hsome
      obtain ⟨rfl, rfl⟩ := hsome
      obtain ⟨h1, h2, h3, h4⟩ := hcond
      simp only [add_sub_cancel_left]
      exact ⟨h1, h2, h3, by simpa using h4⟩
  · rintro ⟨h1, h2, h3, h4⟩
    rcases abs_cases (a - x) with h5 | h5 <;> rcases abs_cases (b - y) with h6 | h6 <;>
      refine ⟨a - x, ⟨by omega, by omega⟩, b - y, ⟨by omega, by omega⟩, ?_⟩ <;>
      · have hxx : x + (a - x) = a := by ring
        have hyy : y + (b - y) = b := by ring
        rw [hxx, hyy]
        rw [if_pos ⟨h1, h2, h3, by simp [h4]⟩]

/-- The concrete cell list produced by the isometric BFS on the empty 10×10
board from (5,5) with budget 3 (in BFS discovery order). -/
theorem isoRange10_coords :
    ((emptyBoard10.calculateMovementRange 5 5 3 false).map fun e => (e.x, e.y))
      = [(5, 5), (6, 5), (4, 5), (5, 6), (5, 4), (7, 5), (6, 6), (6, 4), (3, 5),
         (4, 6), (4, 4), (5, 7), (5, 3), (8, 5), (7, 6), (7, 4), (6, 7), (6, 3),
         (2, 5), (3, 6), (3, 4), (4, 7), (4, 3), (5, 8), (5, 2)] := by
  rfl

/-- C7 — counterexample.  `IsometricGrid.calculateMovementRange` (the BFS
implementation cited by the claim) returns the start cell itself (at step
distance 0) on the empty 10×10 board with budget 3, so its result is not
"the Manhattan diamond minus the start cell". -/
theorem isometric_range_contains_start :
    (5, 5) ∈ ((emptyBoard10.calculateMovementRange 5 5 3 false).map
      fun e => (e.x, e.y)) := by
  rw [isoRange10_coords]
  decide

/-- C7 — amended: on a board with no occupied cells,
`GridSystem.calculateMovementRange(start, r)` returns exactly the in-bounds
cells with Manhattan distance in `[1, r]` from the start (the diamond minus
the start cell, nothing out of bounds); the BFS-based
`IsometricGrid.calculateMovementRange`, on the empty 10×10/range-3 scenario,
returns exactly the in-bounds Manhattan diamond of radius 3 *including* the
start cell. -/
theorem calculateMovementRange_spec :
    (∀ (g : GridSystem) (x y r a b : Int), g.occupiedCells = [] →
      ((a, b) ∈ g.calculateMovementRange x y r ↔
        g.isValidPosition a b = true ∧
        0 < |a - x| + |b - y| ∧ |a - x| + |b - y| ≤ r)) ∧
    (∀ p ∈ allCells10,
      (p ∈ ((emptyBoard10.calculateMovementRange 5 5 3 false).map
          fun e => (e.x, e.y)) ↔
        |p.1 - 5| + |p.2 - 5| ≤ 3)) ∧
    (∀ p ∈ ((emptyBoard10.calculateMovementRange 5 5 3 false).map
        fun e => (e.x, e.y)), p ∈ allCells10) := by
  refine ⟨?_, ?_, ?_⟩
  · intro g x y r a b hocc
    have hocc' : g.isOccupied a b = false := by
      simp [GridSystem.isOccupied, hocc]
    rw [gridSystem_mem_movementRange]
    simp only [hocc', and_true]
    constructor
    · rintro ⟨h1, h2, h3⟩
      exact ⟨h3, h2, h1⟩
    · rintro ⟨h1, h2, h3⟩
      exact ⟨h3, h2, h1⟩
  · rw [isoRange10_coords]
    decide
  · rw [isoRange10_coords]
    decide

/-- C7 — witness for `calculateMovementRange_spec`. -/
theorem calculateMovementRange_spec_witness :
    (7, 5) ∈ (GridSystem.mk 10 10 []).calculateMovementRange 5 5 3 :=
  (calculateMovementRange_spec.1 (GridSystem.mk 10 10 []) 5 5 3 7 5 rfl).mpr
    (by decide)

/-- Frame lemma: a failed `executeAbility` returns the roster untouched. -/
theorem executeAbility_fail_frame
    (abilities : List Ability) (rng : Nat → Int) (req : Request)
    (ps ps' : List SessionCharacter) (res : ExecuteResult)
    (h : executeAbility abilities rng req ps = some (res, ps'))
    (hfail : res.success = false) : ps' = ps := by
  unfold executeAbility at h
  split at h
  · simp only [Option.some.injEq, Prod.mk.injEq] at h
    exact h.2.symm
  · rename_i actor hAct
    split at h
    · simp only [Option.some.injEq, Prod.mk.injEq] at h
      exact h.2.symm
    · rename_i ability hAb
      by_cases h1 : (validateAbilityUse actor ability).valid = true
      · rw [if_neg (by simp [h1])] at h
        by_cases h2 : (validateTargeting ps actor ability req.primaryTarget).valid = true
        · rw [if_neg (by simp [h2])] at h
          by_cases h3 : (match ability.requirements with
              | some reqs => validateCustomRequirements actor reqs
              | none => (⟨true, ""⟩ : ValidationResult)).valid = true
          · rw [if_neg (by simp [h3])] at h
            rcases hE : applyEffects rng
              (if ¬(ability.effectType = "teleport" ∧ ability.resourceType = some "speed")
               then updateParticipant ps actor.id fun a => consumeResources a ability
               else ps) actor.id ability
              (validateTargeting ps actor ability req.primaryTarget) with _ | r
            · rw [hE] at h
              exact absurd h (by simp)
            · rw [hE] at h
              simp only [Option.map_some', Option.some.injEq, Prod.mk.injEq] at h
              obtain ⟨hres, _⟩ := h
              rw [← hres] at hfail
              simp at hfail
          · rw [if_pos h3] at h
            simp only [Option.some.injEq, Prod.mk.injEq] at h
            exact h.2.symm
        · rw [if_pos h2] at h
          simp only [Option.some.injEq, Prod.mk.injEq] at h
          exact h.2.symm
      · rw [if_pos h1] at h
        simp only [Option.some.injEq, Prod.mk.injEq] at h
        exact h.2.symm

/-- C1 — every `executeAbility` result with `success = false` (actor/ability
lookup failure, use validation, targeting validation, or custom requirements)
leaves the participant roster — every resource pool, action-economy counter,
position, lifecycle status and status-effect list — exactly as it was. -/
theorem executeAbility_failure_preserves_participants
    (abilities : List Ability) (rng : Nat → Int) (req : Request)
    (ps ps' : List SessionCharacter) (res : ExecuteResult)
    (h : executeAbility abilities rng req ps = some (res, ps'))
    (hfail : res.success = false) : ps' = ps :=
  executeAbility_fail_frame abilities rng req ps ps' res h hfail

/-- C1 — witness for `executeAbility_failure_preserves_participants`
(an unknown ability id fails and leaves the one-actor roster unchanged). -/
theorem executeAbility_failure_preserves_participants_witness :
    [mkSessionCharacter (mkCharacterStats "Kona" 1 10 10 10 10 10 10)
      "p1" "player" 0 0 0 6]
    = [mkSessionCharacter (mkCharacterStats "Kona" 1 10 10 10 10 10 10)
      "p1" "player" 0 0 0 6] :=
  executeAbility_failure_preserves_participants [] (fun _ => 1)
    ⟨"p1", "ab1", ⟨none, none, none⟩⟩
    [mkSessionCharacter (mkCharacterStats "Kona" 1 10 10 10 10 10 10)
      "p1" "player" 0 0 0 6]
    [mkSessionCharacter (mkCharacterStats "Kona" 1 10 10 10 10 10 10)
      "p1" "player" 0 0 0 6]
    (failRes "Ability not found.") rfl rfl

/-- Inversion of a successful `executeAbility`: the actor and ability resolve,
every validation stage passed, and the result is assembled from an effect
application over the post-consumption roster. -/
theorem executeAbility_success_inv
    (abilities : List Ability) (rng : Nat → Int) (req : Request)
    (ps ps' : List SessionCharacter) (res : ExecuteResult)
    (h : executeAbility abilities rng req ps = some (res, ps'))
    (hs : res.success = true) :
    ∃ actor ability,
      findP ps req.actorId = some actor ∧
      abilities.find? (fun a => a.id = req.abilityId) = some ability ∧
      (validateAbilityUse actor ability).valid = true ∧
      (validateTargeting ps actor ability req.primaryTarget).valid = true ∧
      ∃ r, applyEffects rng
          (if ¬ (ability.effectType = "teleport" ∧ ability.resourceType = some "speed")
           then updateParticipant ps actor.id fun a => consumeResources a ability
           else ps) actor.id ability
          (validateTargeting ps actor ability req.primaryTarget) = some r ∧
        res = ⟨true, actor.character.name ++ " used " ++ ability.name ++ "!",
          r.1, r.2.1⟩ ∧
        ps' = r.2.2 := by
  unfold executeAbility at h
  split at h
  · simp only [Option.some.injEq, Prod.mk.injEq] at h
    rw [← h.1] at hs
    simp [failRes] at hs
  · rename_i actor hAct
    split at h
    · simp only [Option.some.injEq, Prod.mk.injEq] at h
      rw [← h.1] at hs
      simp [failRes] at hs
    · rename_i ability hAb
      by_cases h1 : (validateAbilityUse actor ability).valid = true
      · rw [if_neg (by simp [h1])] at h
        by_cases h2 : (validateTargeting ps actor ability req.primaryTarget).valid = true
        · rw [if_neg (by simp [h2])] at h
          by_cases h3 : (match ability.requirements with
              | some reqs => validateCustomRequirements actor reqs
              | none => (⟨true, ""⟩ : ValidationResult)).valid = true
          · rw [if_neg (by simp [h3])] at h
            rcases hE : applyEffects rng
              (if ¬(ability.effectType = "teleport" ∧ ability.resourceType = some "speed")
               then updateParticipant ps actor.id fun a => consumeResources a ability
               else ps) actor.id ability
              (validateTargeting ps actor ability req.primaryTarget) with _ | r
            · rw [hE] at h
              exact absurd h (by simp)
            · rw [hE] at h
              simp only [Option.map_some', Option.some.injEq, Prod.mk.injEq] at h
              exact ⟨actor, ability, hAct, hAb, h1, h2, r, hE, h.1.symm, h.2.symm⟩
          · rw [if_pos h3] at h
            simp only [Option.some.injEq, Prod.mk.injEq] at h
            rw [← h.1] at hs
            simp [failRes] at hs
        · rw [if_pos h2] at h
          simp only [Option.some.injEq, Prod.mk.injEq] at h
          rw [← h.1] at hs
          simp [failRes] at hs
      · rw [if_pos h1] at h
        simp only [Option.some.injEq, Prod.mk.injEq] at h
        rw [← h.1] at hs
        simp [failRes] at hs

/-- `spendAction` only rewrites the three action-economy counters. -/
theorem spendAction_shape (a : SessionCharacter) (t : String) :
    ∃ act bon rea, a.spendAction t =
      { a with actions := act, bonusActions := bon, reactions := rea } := by
  unfold SessionCharacter.spendAction
  split_ifs <;> exact ⟨_, _, _, rfl⟩

/-- `spendResource` only rewrites the four resource pools. -/
theorem spendResource_shape (a : SessionCharacter) (t : String) (amt : Int) :
    ∃ pr ta ma sp, (a.spendResource t amt).2 =
      { a with
        currentPrana := pr, currentTapas := ta, currentMaya := ma,
        remainingSpeed := sp } := by
  unfold SessionCharacter.spendResource
  split_ifs <;> exact ⟨_, _, _, _, rfl⟩

/-- `consumeResources` only rewrites the action counters and resource pools —
never identity, position, status, status effects, or the character sheet. -/
theorem consumeResources_shape (a : SessionCharacter) (ab : Ability) :
    ∃ act bon rea pr ta ma sp, consumeResources a ab =
      { a with
        actions := act, bonusActions := bon, reactions := rea,
        currentPrana := pr, currentTapas := ta, currentMaya := ma,
        remainingSpeed := sp } := by
  unfold consumeResources
  obtain ⟨act, bon, rea, h1⟩ : ∃ act bon rea,
      (if ab.actionType = "action" then a.spendAction "action"
       else if ab.actionType = "bonus_action" then a.spendAction "bonus_action"
       else if ab.actionType = "reaction" then a.spendAction "reaction" else a)
      = { a with actions := act, bonusActions := bon, reactions := rea } := by
    split_ifs
    · exact spendAction_shape a "action"
    · exact spendAction_shape a "bonus_action"
    · exact spendAction_shape a "reaction"
    · exact ⟨a.actions, a.bonusActions, a.reactions, rfl⟩
  simp only [h1]
  split_ifs with h2
  · obtain ⟨pr, ta, ma, sp, h3⟩ := spendResource_shape
      { a with actions := act, bonusActions := bon, reactions := rea }
      (resourceTypeOrTapas ab.resourceType) ab.resourceCost
    rw [h3]
    exact ⟨act, bon, rea, pr, ta, ma, sp, rfl⟩
  · exact ⟨act, bon, rea, a.currentPrana, a.currentTapas, a.currentMaya,
      a.remainingSpeed, rfl⟩

/-- Filtering commutes with a pointwise rewrite that the filter predicate and
the id projection cannot observe. -/
theorem filter_map_id_congr (g : SessionCharacter → SessionCharacter)
    (q : SessionCharacter → Bool) (hq : ∀ p, q (g p) = q p)
    (hid : ∀ p, (g p).id = p.id) (ps : List SessionCharacter) :
    ((ps.map g).filter q).map SessionCharacter.id
      = (ps.filter q).map SessionCharacter.id := by
  induction ps with
  | nil => rfl
  | cons p pt ih =>
      simp only [List.map_cons, List.filter_cons, hq p]
      by_cases h : q p
      · simp only [h, if_pos, List.map_cons, hid p, ih]
      · simp only [h, Bool.false_eq_true, if_false, ih]

/-- A valid ground targeting resolves to the requested cell and no unit. -/
theorem validateTargeting_ground (ps : List SessionCharacter)
    (actor : SessionCharacter) (ability : Ability) (ti : TargetInfo) (tx ty : Int)
    (hg : ability.targetType = "ground") (hx : ti.x = some tx) (hy : ti.y = some ty)
    (hv : (validateTargeting ps actor ability ti).valid = true) :
    validateTargeting ps actor ability ti = ⟨true, "", none, some (tx, ty)⟩ := by
  unfold validateTargeting at hv ⊢
  rw [hg] at hv ⊢
  rw [if_neg (by decide)] at hv ⊢
  rw [if_pos rfl] at hv ⊢
  rw [hx, hy] at hv ⊢
  by_cases hre : rangeExceeded (calculateDistance actor.x actor.y tx ty) ability.range = true
  · simp [hre] at hv
  · simp [hre]

/-- The ground (non-teleport) branch of the effect stage affects exactly the
radius query over the post-consumption roster. -/
theorem applyEffects_ground (rng : Nat → Int) (ps1 : List SessionCharacter)
    (aid : String) (ability : Ability) (tv : TargetingResult) (tx ty : Int)
    (hg : ability.targetType = "ground") (ht : ability.effectType ≠ "teleport")
    (hpos : tv.position = some (tx, ty))
    (r : List LogEvent × List String × List SessionCharacter)
    (hE : applyEffects rng ps1 aid ability tv = some r) :
    r.2.1 = (getParticipantsInRadius ps1 tx ty ability.effectRadius).map
      SessionCharacter.id := by
  unfold applyEffects at hE
  rw [hg] at hE
  rw [if_neg (by decide)] at hE
  rw [if_neg ht] at hE
  rw [if_pos rfl] at hE
  rw [hpos] at hE
  simp only at hE
  rcases hEL : applyEffectList rng ps1 aid ability
      ((getParticipantsInRadius ps1 tx ty ability.effectRadius).map SessionCharacter.id)
    with ⟨evs, ps2, k2⟩
  rw [hEL] at hE
  rw [← Option.some.inj hE]

/-- C5 — counterexample.  A successful *ground-targeted* ability whose effect
type is `teleport` (the `basic_move` shape) takes the movement branch: its
affected set is the actor alone, not the active participants within
`effectRadius` of the target cell.  Here the move to (5,5) with radius 0
affects `["A"]`, while the claim's set — active participants within Chebyshev
0 of (5,5) — is `["B"]`. -/
theorem ground_teleport_affects_only_actor :
    ((executeAbility [mvAb] (fun _ => 1) ⟨"A", "mv", ⟨none, some 5, some 5⟩⟩
        [chA, chB]).map fun rp => (rp.1.success, rp.1.affectedParticipants))
      = some (true, ["A"]) ∧
    ([chA, chB].filter fun p =>
        calculateDistance 5 5 p.x p.y ≤ mvAb.effectRadius &&
        p.status = "active").map SessionCharacter.id = ["B"] := by
  constructor
  · rfl
  · rfl

/-- C5 — amended: for every successful ground-targeted ability execution with
a *non-teleport* effect (damage/heal/status), the affected participants are
exactly the participants whose status is `active` within Chebyshev
`effectRadius` of the target cell, and no others (teleport-effect ground
abilities instead take the movement branch and affect only the actor, see
`ground_teleport_affects_only_actor`).  Participants' statuses are `active`
or `downed`, the only two the engine produces. -/
theorem ground_effect_affects_radius
    (abilities : List Ability) (rng : Nat → Int) (req : Request)
    (ps ps' : List SessionCharacter) (res : ExecuteResult) (ability : Ability)
    (tx ty : Int)
    (hA : abilities.find? (fun a => a.id = req.abilityId) = some ability)
    (hg : ability.targetType = "ground")
    (ht : ability.effectType ≠ "teleport")
    (hx : req.primaryTarget.x = some tx) (hy : req.primaryTarget.y = some ty)
    (hstat : ∀ p ∈ ps, p.status = "active" ∨ p.status = "downed")
    (h : executeAbility abilities rng req ps = some (res, ps'))
    (hs : res.success = true) :
    res.affectedParticipants
      = (ps.filter fun p =>
          calculateDistance tx ty p.x p.y ≤ ability.effectRadius &&
          p.status = "active").map SessionCharacter.id := by
  obtain ⟨actor, ability0, hAct, hA0, hu, htv, r, hE, hres, hps⟩ :=
    executeAbility_success_inv abilities rng req ps ps' res h hs
  have hab : ability0 = ability := by
    rw [hA0] at hA
    exact Option.some.inj hA
  rw [hab] at htv hE hres
  rw [if_pos (fun hc => ht hc.1)] at hE
  have hr21 := applyEffects_ground rng
    (updateParticipant ps actor.id fun a => consumeResources a ability)
    actor.id ability _ tx ty hg ht
    (by rw [validateTargeting_ground ps actor ability req.primaryTarget tx ty hg hx hy htv])
    r hE
  have haff : res.affectedParticipants = r.2.1 := by rw [hres]
  rw [haff, hr21]
  have hfields : ∀ p : SessionCharacter,
      ((if p.id = actor.id then consumeResources p ability else p).x = p.x) ∧
      ((if p.id = actor.id then consumeResources p ability else p).y = p.y) ∧
      ((if p.id = actor.id then consumeResources p ability else p).status = p.status) ∧
      ((if p.id = actor.id then consumeResources p ability else p).id = p.id) := by
    intro p
    split_ifs with hp
    · obtain ⟨act, bon, rea, pr, ta, ma, sp, hcr⟩ := consumeResources_shape p ability
      rw [hcr]
      exact ⟨rfl, rfl, rfl, rfl⟩
    · exact ⟨rfl, rfl, rfl, rfl⟩
  have hcomm : (getParticipantsInRadius
        (updateParticipant ps actor.id fun a => consumeResources a ability)
        tx ty ability.effectRadius).map SessionCharacter.id
      = (ps.filter fun p =>
          calculateDistance tx ty p.x p.y ≤ ability.effectRadius &&
          p.status ≠ "downed").map SessionCharacter.id := by
    exact filter_map_id_congr _ _
      (fun p => by
        obtain ⟨hx1, hy1, hs1, _⟩ := hfields p
        simp only [hx1, hy1, hs1])
      (fun p => (hfields p).2.2.2) ps
  rw [hcomm]
  congr 1
  exact List.filter_congr fun p hp => by
    rcases hstat p hp with hst | hst <;> simp [hst]

/-- C5 — witness for `ground_effect_affects_radius`: a radius-2 scatter shot
at (5,5) over a roster with an active participant inside the radius, one
outside, and a downed one inside. -/
theorem ground_effect_affects_radius_witness :
    ((executeAbility [scatterAb] (fun _ => 4)
        ⟨"A", "scatter", ⟨none, some 5, some 5⟩⟩ [chA, chB, chC, chD]).map
      fun rp => rp.1.affectedParticipants)
    = some (([chA, chB, chC, chD].filter fun p =>
        calculateDistance 5 5 p.x p.y ≤ scatterAb.effectRadius &&
        p.status = "active").map SessionCharacter.id) := by
  rcases hrun : executeAbility [scatterAb] (fun _ => 4)
      ⟨"A", "scatter", ⟨none, some 5, some 5⟩⟩ [chA, chB, chC, chD]
    with _ | ⟨res0, ps0⟩
  · exact absurd hrun (by decide)
  · have hsucc : res0.success = true := by
      have hmap : (executeAbility [scatterAb] (fun _ => 4)
          ⟨"A", "scatter", ⟨none, some 5, some 5⟩⟩ [chA, chB, chC, chD]).map
          (fun rp => rp.1.success) = some true := by decide
      rw [hrun] at hmap
      exact Option.some.inj hmap
    simp only [Option.map_some', Option.some.injEq]
    exact ground_effect_affects_radius [scatterAb] (fun _ => 4)
      ⟨"A", "scatter", ⟨none, some 5, some 5⟩⟩ [chA, chB, chC, chD] ps0 res0
      scatterAb 5 5 rfl rfl (by decide) rfl rfl (by decide) hrun hsucc

/-- A successful roster lookup returns a participant bearing the looked-up id. -/
theorem findP_id (ps : List SessionCharacter) (pid : String) (a : SessionCharacter)
    (h : findP ps pid = some a) : a.id = pid := by
  unfold findP at h
  have h2 := List.find?_some h
  simpa using h2

/-- Lookup at the rewritten id sees the rewrite (the rewrite keeps the id). -/
theorem findP_update_self (ps : List SessionCharacter) (pid : String)
    (f : SessionCharacter → SessionCharacter)
    (hpres : ∀ p : SessionCharacter, p.id = pid → (f p).id = pid) :
    findP (updateParticipant ps pid f) pid = (findP ps pid).map f := by
  induction ps with
  | nil => rfl
  | cons p pt ih =>
      simp only [updateParticipant, List.map_cons, findP, List.find?_cons]
      by_cases hp : p.id = pid
      · rw [if_pos hp]
        have h1 : decide ((f p).id = pid) = true := decide_eq_true (hpres p hp)
        have h2 : decide (p.id = pid) = true := decide_eq_true hp
        simp only [h1, h2, Option.map_some']
      · rw [if_neg hp]
        have h2 : decide (p.id = pid) = false := decide_eq_false hp
        simp only [h2]
        exact ih

/-- Lookup at any other id is unaffected by the rewrite. -/
theorem findP_update_other (ps : List SessionCharacter) (pid pid' : String)
    (f : SessionCharacter → SessionCharacter) (hne : pid' ≠ pid)
    (hpres : ∀ p : SessionCharacter, p.id = pid → (f p).id = pid) :
    findP (updateParticipant ps pid f) pid' = findP ps pid' := by
  induction ps with
  | nil => rfl
  | cons p pt ih =>
      simp only [updateParticipant, List.map_cons, findP, List.find?_cons]
      by_cases hp : p.id = pid
      · rw [if_pos hp]
        have h1 : decide ((f p).id = pid') = false :=
          decide_eq_false (fun hc => hne (by rw [← hc]; exact hpres p hp))
        have h2 : decide (p.id = pid') = false :=
          decide_eq_false (fun hc => hne (by rw [← hc]; exact hp))
        simp only [h1, h2]
        exact ih
      · rw [if_neg hp]
        by_cases hq : p.id = pid'
        · simp only [decide_eq_true hq]
        · simp only [decide_eq_false hq]
          exact ih

/-- A use-validated actor is not downed. -/
theorem validateAbilityUse_not_downed (actor : SessionCharacter) (ability : Ability)
    (hu : (validateAbilityUse actor ability).valid = true) :
    actor.status ≠ "downed" := by
  intro hd
  unfold validateAbilityUse at hu
  rw [if_pos hd] at hu
  simp at hu

/-- `takeDamage` only rewrites Prana, status, and the damage counter. -/
theorem takeDamage_shape (c : SessionCharacter) (amt : Int) :
    ∃ pr st dr, (c.takeDamage amt).2 =
      { c with currentPrana := pr, status := st, damageReceived := dr } := by
  simp only [SessionCharacter.takeDamage]
  split_ifs <;> exact ⟨_, _, _, rfl⟩

/-- `heal` only rewrites Prana and status. -/
theorem heal_shape (c : SessionCharacter) (amt : Int) :
    ∃ pr st, (c.heal amt).2 = { c with currentPrana := pr, status := st } := by
  simp only [SessionCharacter.heal]
  split_ifs <;> exact ⟨_, _, rfl⟩


/-- What the damage effect does to the target: `takeDamage` of roll plus
attribute modifier. -/
theorem applyDamageEffect_target (ps : List SessionCharacter) (aid tid : String)
    (ability : Ability) (rng : Nat → Int) (k : Nat)
    (actor1 target1 : SessionCharacter) (hne : tid ≠ aid)
    (ha : findP ps aid = some actor1) (ht : findP ps tid = some target1) :
    findP (applyDamageEffect ps aid tid ability rng k).2.1 tid
      = some (target1.takeDamage
          ((rollDice (parseDiceNotation ability.damageDice) rng k).1 +
            damageModifier actor1.character ability)).2 := by
  simp only [applyDamageEffect, ha, ht]
  rcases hroll : rollDice (parseDiceNotation ability.damageDice) rng k with ⟨roll, k2⟩
  simp only
  rcases htd : target1.takeDamage (roll + damageModifier actor1.character ability)
    with ⟨ad, tgt⟩
  simp only
  have htid : target1.id = tid := findP_id ps tid target1 ht
  have hpres1 : ∀ p : SessionCharacter, p.id = tid → ((fun _ => tgt) p).id = tid := by
    intro p _
    obtain ⟨pr, st, dr, hsh⟩ := takeDamage_shape target1
      (roll + damageModifier actor1.character ability)
    rw [htd] at hsh
    simp only at hsh
    rw [hsh]
    exact htid
  rw [findP_update_other _ aid tid _ hne (fun p hp => by simp [hp])]
  rw [findP_update_self _ tid _ hpres1]
  rw [ht]
  simp only [Option.map_some', Option.some.injEq]

/-- What the heal effect does to the target: `heal` of roll plus attribute
modifier. -/
theorem applyHealEffect_target (ps : List SessionCharacter) (aid tid : String)
    (ability : Ability) (rng : Nat → Int) (k : Nat)
    (actor1 target1 : SessionCharacter)
    (ha : findP ps aid = some actor1) (ht : findP ps tid = some target1) :
    findP (applyHealEffect ps aid tid ability rng k).2.1 tid
      = some (target1.heal
          ((rollDice (parseDiceNotation ability.damageDice) rng k).1 +
            damageModifier actor1.character ability)).2 := by
  simp only [applyHealEffect, ha, ht]
  rcases hroll : rollDice (parseDiceNotation ability.damageDice) rng k with ⟨roll, k2⟩
  simp only
  rcases hhl : target1.heal (roll + damageModifier actor1.character ability)
    with ⟨ah, tgt⟩
  simp only
  have htid : target1.id = tid := findP_id ps tid target1 ht
  have hpres1 : ∀ p : SessionCharacter, p.id = tid → ((fun _ => tgt) p).id = tid := by
    intro p _
    obtain ⟨pr, st, hsh⟩ := heal_shape target1
      (roll + damageModifier actor1.character ability)
    rw [hhl] at hsh
    simp only at hsh
    rw [hsh]
    exact htid
  rw [findP_update_self _ tid _ hpres1]
  rw [ht]
  simp only [Option.map_some', Option.some.injEq]


/-- A single-target damage effect list is one `applyDamageEffect`. -/
theorem applyEffectList_single_damage (rng : Nat → Int) (ps : List SessionCharacter)
    (aid : String) (ability : Ability) (tid : String)
    (hd : ability.effectType = "damage") :
    applyEffectList rng ps aid ability [tid]
      = ([(applyDamageEffect ps aid tid ability rng 0).1],
         (applyDamageEffect ps aid tid ability rng 0).2.1,
         (applyDamageEffect ps aid tid ability rng 0).2.2) := by
  simp only [applyEffectList, List.foldl_cons, List.foldl_nil]
  rw [if_pos hd]
  rcases applyDamageEffect ps aid tid ability rng 0 with ⟨ev, ps2, k2⟩
  rfl

/-- A single-target heal effect list is one `applyHealEffect`. -/
theorem applyEffectList_single_heal (rng : Nat → Int) (ps : List SessionCharacter)
    (aid : String) (ability : Ability) (tid : String)
    (hd : ability.effectType = "heal") :
    applyEffectList rng ps aid ability [tid]
      = ([(applyHealEffect ps aid tid ability rng 0).1],
         (applyHealEffect ps aid tid ability rng 0).2.1,
         (applyHealEffect ps aid tid ability rng 0).2.2) := by
  simp only [applyEffectList, List.foldl_cons, List.foldl_nil]
  rw [if_neg (by rw [hd]; decide)]
  rw [if_pos hd]
  rcases applyHealEffect ps aid tid ability rng 0 with ⟨ev, ps2, k2⟩
  rfl

/-- The enemy/ally radius-0 branch of the effect stage hits exactly the
resolved target. -/
theorem applyEffects_single (rng : Nat → Int) (ps1 : List SessionCharacter)
    (aid : String) (ability : Ability) (tv : TargetingResult) (tid : String)
    (htype : ability.targetType = "enemy" ∨ ability.targetType = "ally")
    (hnt : ability.effectType ≠ "teleport")
    (hrad : ability.effectRadius = 0)
    (htv : tv.target = some tid) :
    applyEffects rng ps1 aid ability tv
      = some ((applyEffectList rng ps1 aid ability [tid]).1, [tid],
              (applyEffectList rng ps1 aid ability [tid]).2.1) := by
  unfold applyEffects
  have hself : ¬ ability.targetType = "self" := by
    rcases htype with h | h <;> rw [h] <;> decide
  have hground : ¬ ability.targetType = "ground" := by
    rcases htype with h | h <;> rw [h] <;> decide
  rw [if_neg hself, if_neg hnt, if_neg hground, if_pos htype, htv]
  simp only
  rw [if_neg (by rw [hrad]; decide)]

/-- Valid enemy/ally targeting resolves the looked-up participant — the
checks are existence, Chebyshev range, and team alignment only; the target's
lifecycle status is never consulted. -/
theorem validateTargeting_unit (ps : List SessionCharacter)
    (actor : SessionCharacter) (ability : Ability) (ti : TargetInfo)
    (tid : String) (target : SessionCharacter)
    (htype : ability.targetType = "enemy" ∨ ability.targetType = "ally")
    (hpid : ti.participantId = some tid)
    (hT : findP ps tid = some target)
    (hrange : rangeExceeded (calculateDistance actor.x actor.y target.x target.y)
      ability.range = false)
    (hteamE : ability.targetType = "enemy" → actor.team ≠ target.team)
    (hteamA : ability.targetType = "ally" → actor.team = target.team) :
    validateTargeting ps actor ability ti = ⟨true, "", some target.id, none⟩ := by
  unfold validateTargeting
  have hself : ¬ ability.targetType = "self" := by
    rcases htype with h | h <;> rw [h] <;> decide
  have hground : ¬ ability.targetType = "ground" := by
    rcases htype with h | h <;> rw [h] <;> decide
  rw [if_neg hself, if_neg hground, if_pos htype, hpid]
  simp only
  rw [hT]
  simp only
  rw [if_neg (by simp [hrange])]
  rcases htype with h | h
  · rw [if_neg (fun hc => hteamE h hc.2)]
    rw [if_neg (fun hc => by rw [h] at hc; exact absurd hc.1 (by decide))]
  · rw [if_neg (by simp [h])]
    rw [if_neg (fun hc => hc.2 (hteamA h))]


/-- C10 -- for a single-target (`effectRadius = 0`) enemy- or ally-type
damage/heal ability, targeting checks only existence, Chebyshev range and
team alignment -- never the target's lifecycle status -- so `executeAbility`
succeeds against a `downed` target and applies the damage or heal to it. -/
theorem executeAbility_hits_downed_target
    (abilities : List Ability) (rng : Nat → Int) (req : Request)
    (ps : List SessionCharacter) (ability : Ability)
    (actor target : SessionCharacter) (tid : String)
    (hA : abilities.find? (fun a => a.id = req.abilityId) = some ability)
    (hAct : findP ps req.actorId = some actor)
    (hpid : req.primaryTarget.participantId = some tid)
    (hT : findP ps tid = some target)
    (htype : ability.targetType = "enemy" ∨ ability.targetType = "ally")
    (heff : ability.effectType = "damage" ∨ ability.effectType = "heal")
    (hrad : ability.effectRadius = 0)
    (hdown : target.status = "downed")
    (hu : (validateAbilityUse actor ability).valid = true)
    (hreq : ability.requirements = none)
    (hrange : rangeExceeded (calculateDistance actor.x actor.y target.x target.y)
      ability.range = false)
    (hteamE : ability.targetType = "enemy" → actor.team ≠ target.team)
    (hteamA : ability.targetType = "ally" → actor.team = target.team) :
    ∃ res ps', executeAbility abilities rng req ps = some (res, ps') ∧
      res.success = true ∧ res.affectedParticipants = [tid] ∧
      (ability.effectType = "damage" →
        findP ps' tid = some (target.takeDamage
          ((rollDice (parseDiceNotation ability.damageDice) rng 0).1 +
            damageModifier actor.character ability)).2) ∧
      (ability.effectType = "heal" →
        findP ps' tid = some (target.heal
          ((rollDice (parseDiceNotation ability.damageDice) rng 0).1 +
            damageModifier actor.character ability)).2) := by
  have hactid : actor.id = req.actorId := findP_id ps req.actorId actor hAct
  have htid : target.id = tid := findP_id ps tid target hT
  have hand : actor.status ≠ "downed" := validateAbilityUse_not_downed actor ability hu
  have hne : tid ≠ actor.id := by
    intro he
    have h1 : findP ps tid = some actor := by rw [he, hactid]; exact hAct
    rw [hT] at h1
    have h2 : target = actor := Option.some.inj h1
    rw [h2] at hdown
    exact hand hdown
  have hnt : ability.effectType ≠ "teleport" := by
    rcases heff with h | h <;> rw [h] <;> decide
  have htveq := validateTargeting_unit ps actor ability req.primaryTarget tid target
    htype hpid hT hrange hteamE hteamA
  have hch : ∀ p : SessionCharacter, p.id = actor.id →
      (consumeResources p ability).id = actor.id := by
    intro p hp
    obtain ⟨act, bon, rea, pr, ta, ma, sp, hsh⟩ := consumeResources_shape p ability
    rw [hsh]
    exact hp
  have ha1 : findP (updateParticipant ps actor.id fun a => consumeResources a ability)
      actor.id = some (consumeResources actor ability) := by
    rw [findP_update_self ps actor.id _ hch]
    have : findP ps actor.id = some actor := by rw [hactid]; exact hAct
    rw [this]
    rfl
  have ht1 : findP (updateParticipant ps actor.id fun a => consumeResources a ability)
      tid = some target := by
    rw [findP_update_other ps actor.id tid _ hne hch]
    exact hT
  have hchar : (consumeResources actor ability).character = actor.character := by
    obtain ⟨act, bon, rea, pr, ta, ma, sp, hsh⟩ := consumeResources_shape actor ability
    rw [hsh]
  have hrun : executeAbility abilities rng req ps
      = some (⟨true, actor.character.name ++ " used " ++ ability.name ++ "!",
          (applyEffectList rng
            (updateParticipant ps actor.id fun a => consumeResources a ability)
            actor.id ability [tid]).1, [tid]⟩,
        (applyEffectList rng
            (updateParticipant ps actor.id fun a => consumeResources a ability)
            actor.id ability [tid]).2.1) := by
    unfold executeAbility
    rw [hAct, hA]
    simp only
    rw [if_neg (by simp [hu])]
    rw [htveq]
    simp only
    rw [if_neg (by decide)]
    rw [hreq]
    simp only
    rw [if_neg (by decide)]
    rw [if_pos (fun hc => hnt hc.1)]
    rw [applyEffects_single rng _ actor.id ability _ tid htype hnt hrad
      (by rw [htid])]
    rfl
  refine ⟨_, _, hrun, rfl, rfl, ?_, ?_⟩
  · intro hdmg
    rw [applyEffectList_single_damage rng _ actor.id ability tid hdmg]
    have := applyDamageEffect_target
      (updateParticipant ps actor.id fun a => consumeResources a ability)
      actor.id tid ability rng 0 (consumeResources actor ability) target hne ha1 ht1
    rw [hchar] at this
    exact this
  · intro hheal
    rw [applyEffectList_single_heal rng _ actor.id ability tid hheal]
    have := applyHealEffect_target
      (updateParticipant ps actor.id fun a => consumeResources a ability)
      actor.id tid ability rng 0 (consumeResources actor ability) target ha1 ht1
    rw [hchar] at this
    exact this


/-- C10 -- witness for `executeAbility_hits_downed_target`: a blowpipe shot
against a downed enemy at Chebyshev distance 6 (range 8). -/
theorem executeAbility_hits_downed_target_witness :
    ∃ res ps', executeAbility [strikeAb] (fun _ => 3)
        ⟨"A", "strike", ⟨some "D", none, none⟩⟩ [chA, chD] = some (res, ps') ∧
      res.success = true ∧ res.affectedParticipants = ["D"] ∧
      (strikeAb.effectType = "damage" →
        findP ps' "D" = some (chD.takeDamage
          ((rollDice (parseDiceNotation strikeAb.damageDice) (fun _ => 3) 0).1 +
            damageModifier chA.character strikeAb)).2) ∧
      (strikeAb.effectType = "heal" →
        findP ps' "D" = some (chD.heal
          ((rollDice (parseDiceNotation strikeAb.damageDice) (fun _ => 3) 0).1 +
            damageModifier chA.character strikeAb)).2) :=
  executeAbility_hits_downed_target [strikeAb] (fun _ => 3)
    ⟨"A", "strike", ⟨some "D", none, none⟩⟩ [chA, chD] strikeAb chA chD "D"
    rfl (by decide) rfl (by decide) (Or.inl rfl) (Or.inl rfl) rfl (by decide)
    (by decide) rfl (by decide) (fun _ => by decide) (fun h => absurd h (by decide))

/-- Rolling with a stream whose every roll is at least 1 yields a total of at
least `dice + bonus`. -/
theorem rollDice_lower (spec : DiceSpec) (rng : Nat → Int) (k : Nat)
    (h : ∀ i, 1 ≤ rng i) :
    (spec.dice : Int) + spec.bonus ≤ (rollDice spec rng k).1 := by
  have key : ∀ (n : Nat) (init : Int),
      init + n ≤ (List.range n).foldl (fun acc i => acc + rng (k + i)) init := by
    intro n
    induction n with
    | zero => intro init; simp
    | succ n ih =>
        intro init
        rw [List.range_succ]
        simp only [List.foldl_append, List.foldl_cons, List.foldl_nil]
        have hr := h (k + n)
        have h1 := ih init
        push_cast
        omega
  have hk := key spec.dice (spec.bonus : Int)
  simp only [rollDice]
  omega

/-- Spending an action counter never touches a resource pool. -/
theorem spendAction_bounds (a : SessionCharacter) (t : String)
    (h : resourcesInBounds a) : resourcesInBounds (a.spendAction t) := by
  obtain ⟨act, bon, rea, hsh⟩ := spendAction_shape a t
  rw [hsh]
  exact h

/-- Spending a non-negative amount keeps every pool in bounds (a failed spend
is a no-op, a successful one only decreases a pool that covered the amount). -/
theorem spendResource_bounds (a : SessionCharacter) (t : String) (amt : Int)
    (h : resourcesInBounds a) (h0 : 0 ≤ amt) :
    resourcesInBounds (a.spendResource t amt).2 := by
  unfold SessionCharacter.spendResource
  unfold resourcesInBounds at h
  split_ifs <;> simp only [resourcesInBounds] <;> omega

/-- Non-negative damage keeps every pool in bounds (Prana is floored at 0). -/
theorem takeDamage_bounds (c : SessionCharacter) (amt : Int)
    (h : resourcesInBounds c) (h0 : 0 ≤ amt) :
    resourcesInBounds (c.takeDamage amt).2 := by
  simp only [SessionCharacter.takeDamage]
  unfold resourcesInBounds at h
  split_ifs <;> simp only [resourcesInBounds] <;> omega

/-- Non-negative healing keeps every pool in bounds (Prana is clamped at the
ceiling). -/
theorem heal_bounds (c : SessionCharacter) (amt : Int)
    (h : resourcesInBounds c) (h0 : 0 ≤ amt) :
    resourcesInBounds (c.heal amt).2 := by
  simp only [SessionCharacter.heal]
  unfold resourcesInBounds at h
  split_ifs <;> simp only [resourcesInBounds] <;> omega

/-- Consuming an ability's cost keeps every pool in bounds. -/
theorem consumeResources_bounds (a : SessionCharacter) (ab : Ability)
    (h : resourcesInBounds a) : resourcesInBounds (consumeResources a ab) := by
  unfold consumeResources
  set a1 := (if ab.actionType = "action" then a.spendAction "action"
      else if ab.actionType = "bonus_action" then a.spendAction "bonus_action"
      else if ab.actionType = "reaction" then a.spendAction "reaction" else a)
    with ha1
  have hb1 : resourcesInBounds a1 := by
    rw [ha1]
    split_ifs <;> first | exact spendAction_bounds a _ h | exact h
  split_ifs with hc
  · exact spendResource_bounds a1 _ _ hb1 (le_of_lt hc)
  · exact hb1

/-- Consuming resources does not change the underlying character sheet. -/
theorem consumeResources_character (a : SessionCharacter) (ab : Ability) :
    (consumeResources a ab).character = a.character := by
  obtain ⟨act, bon, rea, pr, ta, ma, sp, hsh⟩ := consumeResources_shape a ab
  rw [hsh]

/-- Consuming resources preserves the effect-stage invariant. -/
theorem consumeResources_okP (ab : Ability) (a : SessionCharacter)
    (h : okP ab a) : okP ab (consumeResources a ab) := by
  refine ⟨consumeResources_bounds a ab h.1, ?_⟩
  have h2 := h.2
  unfold dmgFloor at h2 ⊢
  rw [consumeResources_character]
  exact h2

/-- A roster update with an invariant-preserving function preserves any
pointwise invariant of the roster. -/
theorem updateParticipant_pred (P : SessionCharacter → Prop)
    (ps : List SessionCharacter) (pid : String)
    (f : SessionCharacter → SessionCharacter)
    (hf : ∀ p, P p → P (f p)) (h : ∀ p ∈ ps, P p) :
    ∀ p ∈ updateParticipant ps pid f, P p := by
  intro p hp
  simp only [updateParticipant, List.mem_map] at hp
  obtain ⟨q, hq, rfl⟩ := hp
  by_cases hid : q.id = pid
  · rw [if_pos hid]
    exact hf q (h q hq)
  · rw [if_neg hid]
    exact h q hq

/-- Overwriting an entry with a value satisfying a pointwise invariant
preserves that invariant. -/
theorem updateParticipant_pred_const (P : SessionCharacter → Prop)
    (ps : List SessionCharacter) (pid : String) (v : SessionCharacter)
    (hv : P v) (h : ∀ p ∈ ps, P p) :
    ∀ p ∈ updateParticipant ps pid (fun _ => v), P p :=
  updateParticipant_pred P ps pid _ (fun _ _ => hv) h

/-- Taking damage does not change the underlying character sheet. -/
theorem takeDamage_character (c : SessionCharacter) (amt : Int) :
    (c.takeDamage amt).2.character = c.character := by
  obtain ⟨pr, st, dr, hsh⟩ := takeDamage_shape c amt
  rw [hsh]

/-- Healing does not change the underlying character sheet. -/
theorem heal_character (c : SessionCharacter) (amt : Int) :
    (c.heal amt).2.character = c.character := by
  obtain ⟨pr, st, hsh⟩ := heal_shape c amt
  rw [hsh]

/-- Adding a status effect only rewrites the status-effect list. -/
theorem addStatusEffect_shape (c : SessionCharacter) (n : String) (d : Int) :
    ∃ se, c.addStatusEffect n d = { c with statusEffects := se } := by
  unfold SessionCharacter.addStatusEffect
  split_ifs <;> exact ⟨_, rfl⟩

/-- Non-negative damage preserves the effect-stage invariant. -/
theorem takeDamage_okP (ab : Ability) (c : SessionCharacter) (amt : Int)
    (h : okP ab c) (h0 : 0 ≤ amt) : okP ab (c.takeDamage amt).2 := by
  refine ⟨takeDamage_bounds c amt h.1 h0, ?_⟩
  have h2 := h.2
  unfold dmgFloor at h2 ⊢
  rw [takeDamage_character]
  exact h2

/-- Non-negative healing preserves the effect-stage invariant. -/
theorem heal_okP (ab : Ability) (c : SessionCharacter) (amt : Int)
    (h : okP ab c) (h0 : 0 ≤ amt) : okP ab (c.heal amt).2 := by
  refine ⟨heal_bounds c amt h.1 h0, ?_⟩
  have h2 := h.2
  unfold dmgFloor at h2 ⊢
  rw [heal_character]
  exact h2

/-- A damage-effect application preserves the effect-stage invariant across
the roster, given rolls of at least 1 and a non-negative damage floor. -/
theorem applyDamageEffect_okP (ab : Ability) (rng : Nat → Int)
    (hrng : ∀ i, 1 ≤ rng i) (ps : List SessionCharacter) (aid tid : String)
    (k : Nat) (h : ∀ p ∈ ps, okP ab p) :
    ∀ p ∈ (applyDamageEffect ps aid tid ab rng k).2.1, okP ab p := by
  unfold applyDamageEffect
  rcases hfa : findP ps aid with _ | actor1
  · exact h
  · rcases hft : findP ps tid with _ | target1
    · exact h
    · simp only
      rcases hroll : rollDice (parseDiceNotation ab.damageDice) rng k with ⟨roll, k2⟩
      simp only
      have hmem_a : actor1 ∈ ps := List.mem_of_find?_eq_some hfa
      have hmem_t : target1 ∈ ps := List.mem_of_find?_eq_some hft
      have htot : 0 ≤ roll + damageModifier actor1.character ab := by
        have hlow := rollDice_lower (parseDiceNotation ab.damageDice) rng k hrng
        rw [hroll] at hlow
        have hfl := (h actor1 hmem_a).2
        unfold dmgFloor at hfl
        simp only at hlow
        omega
      rcases htd : target1.takeDamage (roll + damageModifier actor1.character ab)
        with ⟨ad, tgt⟩
      simp only
      have htgt : okP ab tgt := by
        have := takeDamage_okP ab target1
          (roll + damageModifier actor1.character ab) (h target1 hmem_t) htot
        rw [htd] at this
        exact this
      apply updateParticipant_pred (okP ab)
      · intro p hp
        refine ⟨⟨hp.1.1, hp.1.2.1, hp.1.2.2.1, hp.1.2.2.2.1, hp.1.2.2.2.2.1,
          hp.1.2.2.2.2.2.1, hp.1.2.2.2.2.2.2⟩, hp.2⟩
      · exact updateParticipant_pred_const (okP ab) ps tid tgt htgt h

/-- A heal-effect application preserves the effect-stage invariant across the
roster, given rolls of at least 1 and a non-negative heal floor. -/
theorem applyHealEffect_okP (ab : Ability) (rng : Nat → Int)
    (hrng : ∀ i, 1 ≤ rng i) (ps : List SessionCharacter) (aid tid : String)
    (k : Nat) (h : ∀ p ∈ ps, okP ab p) :
    ∀ p ∈ (applyHealEffect ps aid tid ab rng k).2.1, okP ab p := by
  unfold applyHealEffect
  rcases hfa : findP ps aid with _ | actor1
  · exact h
  · rcases hft : findP ps tid with _ | target1
    · exact h
    · simp only
      rcases hroll : rollDice (parseDiceNotation ab.damageDice) rng k with ⟨roll, k2⟩
      simp only
      have hmem_a : actor1 ∈ ps := List.mem_of_find?_eq_some hfa
      have hmem_t : target1 ∈ ps := List.mem_of_find?_eq_some hft
      have htot : 0 ≤ roll + damageModifier actor1.character ab := by
        have hlow := rollDice_lower (parseDiceNotation ab.damageDice) rng k hrng
        rw [hroll] at hlow
        have hfl := (h actor1 hmem_a).2
        unfold dmgFloor at hfl
        simp only at hlow
        omega
      rcases hhl : target1.heal (roll + damageModifier actor1.character ab)
        with ⟨ah, tgt⟩
      simp only
      have htgt : okP ab tgt := by
        have := heal_okP ab target1
          (roll + damageModifier actor1.character ab) (h target1 hmem_t) htot
        rw [hhl] at this
        exact this
      exact updateParticipant_pred_const (okP ab) ps tid tgt htgt h

/-- Adding a status effect preserves the effect-stage invariant. -/
theorem addStatusEffect_okP (ab : Ability) (c : SessionCharacter) (n : String)
    (d : Int) (h : okP ab c) : okP ab (c.addStatusEffect n d) := by
  obtain ⟨se, hsh⟩ := addStatusEffect_shape c n d
  rw [hsh]
  exact h

/-- A status-effect application preserves the effect-stage invariant across
the roster. -/
theorem applyStatusEffect_okP (ab : Ability) (ps : List SessionCharacter)
    (aid tid : String) (h : ∀ p ∈ ps, okP ab p) :
    ∀ p ∈ (applyStatusEffect ps aid tid ab).2, okP ab p := by
  unfold applyStatusEffect
  simp only
  split_ifs
  · exact updateParticipant_pred (okP ab) ps tid _
      (fun p hp => addStatusEffect_okP ab p _ _ hp) h
  · exact h

/-- Chebyshev distance is non-negative. -/
theorem calculateDistance_nonneg (x1 y1 x2 y2 : Int) :
    0 ≤ calculateDistance x1 y1 x2 y2 :=
  le_trans (abs_nonneg _) (le_max_left _ _)

/-- Moving preserves the effect-stage invariant. -/
theorem moveTo_okP (ab : Ability) (c : SessionCharacter) (x y z : Int)
    (h : okP ab c) : okP ab (c.moveTo x y z).2 := h

/-- Spending a non-negative amount preserves the effect-stage invariant. -/
theorem spendResource_okP (ab : Ability) (c : SessionCharacter) (t : String)
    (amt : Int) (h : okP ab c) (h0 : 0 ≤ amt) :
    okP ab (c.spendResource t amt).2 := by
  refine ⟨spendResource_bounds c t amt h.1 h0, ?_⟩
  obtain ⟨pr, ta, ma, sp, hsh⟩ := spendResource_shape c t amt
  have h2 := h.2
  unfold dmgFloor at h2 ⊢
  rw [hsh]
  exact h2

/-- A teleport-effect application preserves the effect-stage invariant across
the roster (speed is deducted only after the distance check passed). -/
theorem applyTeleportEffect_okP (ab : Ability) (ps ps2 : List SessionCharacter)
    (aid : String) (pos : Option (Int × Int)) (ev : LogEvent)
    (hT : applyTeleportEffect ps aid pos ab = some (ev, ps2))
    (h : ∀ p ∈ ps, okP ab p) : ∀ p ∈ ps2, okP ab p := by
  unfold applyTeleportEffect at hT
  rcases pos with _ | ⟨tx, ty⟩
  · exact absurd hT (by simp)
  · rcases hfa : findP ps aid with _ | actor1
    · rw [hfa] at hT
      exact absurd hT (by simp)
    · rw [hfa] at hT
      simp only at hT
      by_cases hsp : ab.resourceType = some "speed" ∧
          calculateDistance actor1.x actor1.y tx ty > actor1.remainingSpeed
      · rw [if_pos hsp] at hT
        simp only [Option.some.injEq, Prod.mk.injEq] at hT
        rw [← hT.2]
        exact h
      · rw [if_neg hsp] at hT
        simp only [Option.some.injEq, Prod.mk.injEq] at hT
        rw [← hT.2]
        split_ifs <;>
          first
            | exact updateParticipant_pred _ _ _ _
                (fun p hp => addStatusEffect_okP ab p _ _ hp)
                (updateParticipant_pred _ _ _ _
                  (fun p hp => spendResource_okP ab p _ _ hp
                    (calculateDistance_nonneg _ _ _ _))
                  (updateParticipant_pred _ _ _ _
                    (fun p hp => moveTo_okP ab p _ _ _ hp) h))
            | exact updateParticipant_pred _ _ _ _
                (fun p hp => addStatusEffect_okP ab p _ _ hp)
                (updateParticipant_pred _ _ _ _
                  (fun p hp => moveTo_okP ab p _ _ _ hp) h)
            | exact updateParticipant_pred _ _ _ _
                (fun p hp => spendResource_okP ab p _ _ hp
                  (calculateDistance_nonneg _ _ _ _))
                (updateParticipant_pred _ _ _ _
                  (fun p hp => moveTo_okP ab p _ _ _ hp) h)
            | exact updateParticipant_pred _ _ _ _
                (fun p hp => moveTo_okP ab p _ _ _ hp) h

/-- The target-loop fold of the effect stage preserves the effect-stage
invariant from any accumulator whose roster satisfies it. -/
theorem applyEffectList_okP_aux (ab : Ability) (rng : Nat → Int)
    (hrng : ∀ i, 1 ≤ rng i) (aid : String) (ids : List String) :
    ∀ (acc : List LogEvent × List SessionCharacter × Nat),
      (∀ p ∈ acc.2.1, okP ab p) →
      ∀ p ∈ (ids.foldl (fun acc tid =>
          let (evs, ps, k) := acc
          if ab.effectType = "damage" then
            let (ev, ps', k') := applyDamageEffect ps aid tid ab rng k
            (evs ++ [ev], ps', k')
          else if ab.effectType = "heal" then
            let (ev, ps', k') := applyHealEffect ps aid tid ab rng k
            (evs ++ [ev], ps', k')
          else if ab.effectType = "status" then
            let (ev, ps') := applyStatusEffect ps aid tid ab
            (evs ++ [ev], ps', k)
          else acc) acc).2.1, okP ab p := by
  induction ids with
  | nil => intro acc hacc; exact hacc
  | cons tid ids ih =>
      intro acc hacc
      rw [List.foldl_cons]
      apply ih
      rcases acc with ⟨evs, ps0, k0⟩
      simp only at hacc ⊢
      split_ifs with h1 h2 h3
      · rcases hda : applyDamageEffect ps0 aid tid ab rng k0 with ⟨ev, ps1, k1⟩
        simp only
        have := applyDamageEffect_okP ab rng hrng ps0 aid tid k0 hacc
        rw [hda] at this
        exact this
      · rcases hhe : applyHealEffect ps0 aid tid ab rng k0 with ⟨ev, ps1, k1⟩
        simp only
        have := applyHealEffect_okP ab rng hrng ps0 aid tid k0 hacc
        rw [hhe] at this
        exact this
      · rcases hst : applyStatusEffect ps0 aid tid ab with ⟨ev, ps1⟩
        simp only
        have := applyStatusEffect_okP ab ps0 aid tid hacc
        rw [hst] at this
        exact this
      · exact hacc

/-- The target loop of the effect stage preserves the effect-stage
invariant. -/
theorem applyEffectList_okP (ab : Ability) (rng : Nat → Int)
    (hrng : ∀ i, 1 ≤ rng i) (ps : List SessionCharacter) (aid : String)
    (ids : List String) (h : ∀ p ∈ ps, okP ab p) :
    ∀ p ∈ (applyEffectList rng ps aid ab ids).2.1, okP ab p :=
  applyEffectList_okP_aux ab rng hrng aid ids ([], ps, 0) h

/-- Every branch of the effect stage preserves the effect-stage invariant. -/
theorem applyEffects_okP (ab : Ability) (rng : Nat → Int)
    (hrng : ∀ i, 1 ≤ rng i) (ps : List SessionCharacter) (aid : String)
    (tv : TargetingResult)
    (r : List LogEvent × List String × List SessionCharacter)
    (hE : applyEffects rng ps aid ab tv = some r)
    (h : ∀ p ∈ ps, okP ab p) : ∀ p ∈ r.2.2, okP ab p := by
  unfold applyEffects at hE
  split_ifs at hE with h1 h2 h3 h4 h5 h6 h7
  · rcases hda : applyDamageEffect ps aid aid ab rng 0 with ⟨ev, ps1, k1⟩
    rw [hda] at hE
    simp only [Option.some.injEq] at hE
    rw [← hE]
    simp only
    have := applyDamageEffect_okP ab rng hrng ps aid aid 0 h
    rw [hda] at this
    exact this
  · rcases hhe : applyHealEffect ps aid aid ab rng 0 with ⟨ev, ps1, k1⟩
    rw [hhe] at hE
    simp only [Option.some.injEq] at hE
    rw [← hE]
    simp only
    have := applyHealEffect_okP ab rng hrng ps aid aid 0 h
    rw [hhe] at this
    exact this
  · simp only [Option.some.injEq] at hE
    rw [← hE]
    exact h
  · rcases hTo : applyTeleportEffect ps aid tv.position ab with _ | ⟨ev, ps2⟩
    · rw [hTo] at hE
      exact absurd hE (by simp)
    · rw [hTo] at hE
      simp only [Option.map_some', Option.some.injEq] at hE
      rw [← hE]
      simp only
      exact applyTeleportEffect_okP ab ps ps2 aid tv.position ev hTo h
  · rcases hpos : tv.position with _ | ⟨gx, gy⟩
    · rw [hpos] at hE
      exact absurd hE (by simp)
    · rw [hpos] at hE
      simp only at hE
      rw [← Option.some.inj hE]
      exact applyEffectList_okP ab rng hrng ps aid
        ((getParticipantsInRadius ps gx gy ab.effectRadius).map SessionCharacter.id) h
  · rcases htv : tv.target with _ | tid
    · rw [htv] at hE
      exact absurd hE (by simp)
    · rw [htv] at hE
      simp only at hE
      rcases hft : findP ps tid with _ | target1
      · rw [hft] at hE
        exact absurd hE (by simp)
      · rw [hft] at hE
        simp only at hE
        rw [← Option.some.inj hE]
        exact applyEffectList_okP ab rng hrng ps aid
          ((getParticipantsInRadius ps target1.x target1.y ab.effectRadius).map
            SessionCharacter.id) h
  · rcases htv : tv.target with _ | tid
    · rw [htv] at hE
      exact absurd hE (by simp)
    · rw [htv] at hE
      simp only at hE
      rw [← Option.some.inj hE]
      exact applyEffectList_okP ab rng hrng ps aid [tid] h
  · simp only [Option.some.injEq] at hE
    rw [← hE]
    exact h

/-- C2 — counterexample.  Without a proviso on the sign of the damage total
the claim fails: a self-targeted damage ability whose only contribution is the
attribute modifier of a Bala-8 actor (modifier −1) resolves successfully and
`takeDamage(-1)` pushes Prana to 51, one above the ceiling of 50. -/
theorem negative_damage_exceeds_prana_ceiling :
    ((executeAbility [selfHarmAb] (fun _ => 1) ⟨"W", "sh", ⟨none, none, none⟩⟩
        [chW]).map fun rp =>
      (rp.1.success, rp.2.map fun p => (p.currentPrana, p.character.maxPrana)))
      = some (true, [(51, 50)]) := by
  decide

/-- C2 — amended.  `executeAbility` keeps every participant's resources in
bounds — no pool below 0 or above its ceiling, remaining speed non-negative —
provided the roster starts in bounds, every die roll is at least 1, and no
ability's damage/heal floor (dice count + bonus + attribute modifier) is
negative against any participant.  The extra proviso is necessary: a negative
damage total makes `takeDamage` push Prana above its ceiling (see
`negative_damage_exceeds_prana_ceiling`). -/
theorem executeAbility_resource_bounds
    (abilities : List Ability) (rng : Nat → Int) (req : Request)
    (ps ps' : List SessionCharacter) (res : ExecuteResult)
    (h : executeAbility abilities rng req ps = some (res, ps'))
    (hb : ∀ p ∈ ps, resourcesInBounds p)
    (hrng : ∀ i, 1 ≤ rng i)
    (hmod : ∀ ab ∈ abilities, ∀ p ∈ ps, 0 ≤ dmgFloor ab p) :
    ∀ p ∈ ps', resourcesInBounds p := by
  rcases hsb : res.success with _ | _
  · rw [executeAbility_fail_frame abilities rng req ps ps' res h hsb]
    exact hb
  · obtain ⟨actor, ability, hAct, hA, hu, htv, r, hE, hres, hps⟩ :=
      executeAbility_success_inv abilities rng req ps ps' res h hsb
    have habmem : ability ∈ abilities := List.mem_of_find?_eq_some hA
    have hok : ∀ p ∈ ps, okP ability p :=
      fun p hp => ⟨hb p hp, hmod ability habmem p hp⟩
    have hok1 : ∀ p ∈ (if ¬ (ability.effectType = "teleport" ∧
          ability.resourceType = some "speed")
        then updateParticipant ps actor.id fun a => consumeResources a ability
        else ps), okP ability p := by
      split_ifs
      · exact hok
      · exact updateParticipant_pred (okP ability) ps actor.id _
          (consumeResources_okP ability) hok
    have hall := applyEffects_okP ability rng hrng _ actor.id _ r hE hok1
    rw [hps]
    intro p hp
    exact (hall p hp).1

/-- C2 — witness for `executeAbility_resource_bounds` (a successful blowpipe
shot from a fresh roster leaves the first resulting participant in bounds). -/
theorem executeAbility_resource_bounds_witness :
    resourcesInBounds
      (((executeAbility [strikeAb] (fun _ => 3)
          ⟨"A", "strike", ⟨some "D", none, none⟩⟩ [chA, chD]).map
        fun rp => rp.2.head?.getD chA).getD chA) := by
  rcases hrun : executeAbility [strikeAb] (fun _ => 3)
      ⟨"A", "strike", ⟨some "D", none, none⟩⟩ [chA, chD] with _ | ⟨res0, ps0⟩
  · exact absurd hrun (by decide)
  · have hall := executeAbility_resource_bounds [strikeAb] (fun _ => 3)
      ⟨"A", "strike", ⟨some "D", none, none⟩⟩ [chA, chD] ps0 res0 hrun
      (by decide) (fun _ => (by decide : (1 : Int) ≤ 3)) (by decide)
    simp only [Option.map_some', Option.getD_some]
    rcases ps0 with _ | ⟨p0, pt⟩
    · simp only [List.head?_nil, Option.getD_none]
      decide
    · simp only [List.head?_cons, Option.getD_some]
      exact hall p0 (List.mem_cons_self p0 pt)

/-- C4 — counterexample.  A successful `quick_movement` (the catalog's
`bonus_action` teleport funded by `speed`) leaves the actor's bonus-action
counter at 1: the special case skips the whole consumption stage — the
action-type counter included — not just the resource cost. -/
theorem speed_teleport_skips_action_counter :
    ((executeAbility [qmAb] (fun _ => 1)
        ⟨"A", "quick_movement", ⟨none, some 2, some 2⟩⟩ [chA]).map fun rp =>
      (rp.1.success, rp.2.map fun p =>
        ((p.bonusActions, p.actions), p.x, p.y, p.remainingSpeed)))
      = some (true, [((1, 1), 2, 2, 4)]) := by
  decide

/-- C4 — amended.  For a successful `executeAbility` call the consumption
stage behaves as follows.  Outside the special case (a `teleport` effect
funded by `speed`) the effect stage runs on the roster produced by
`consumeResources`, which spends the action-type counter and the resource
cost.  In the special case the consumption stage is skipped entirely — the
action-type counter included, not only the resource cost (see
`speed_teleport_skips_action_counter`) — and for a ground target the movement
effect itself verifies that the Chebyshev distance does not exceed the actor's
remaining speed: within reach the actor moves and exactly that distance is
deducted from its speed, otherwise the roster is unchanged and the only log
event is an `error`. -/
theorem executeAbility_consumption_stage
    (abilities : List Ability) (rng : Nat → Int) (req : Request)
    (ps ps' : List SessionCharacter) (res : ExecuteResult)
    (actor : SessionCharacter) (ability : Ability)
    (h : executeAbility abilities rng req ps = some (res, ps'))
    (hs : res.success = true)
    (hAct : findP ps req.actorId = some actor)
    (hA : abilities.find? (fun a => a.id = req.abilityId) = some ability) :
    (¬ (ability.effectType = "teleport" ∧ ability.resourceType = some "speed") →
      ∃ r, applyEffects rng
          (updateParticipant ps actor.id fun a => consumeResources a ability)
          actor.id ability
          (validateTargeting ps actor ability req.primaryTarget) = some r ∧
        ps' = r.2.2) ∧
    (ability.effectType = "teleport" ∧ ability.resourceType = some "speed" →
     ability.targetType = "ground" → ability.statusEffect = none →
     ∀ tx ty, req.primaryTarget.x = some tx → req.primaryTarget.y = some ty →
      (calculateDistance actor.x actor.y tx ty ≤ actor.remainingSpeed →
        ps' = updateParticipant
          (updateParticipant ps actor.id fun a => (a.moveTo tx ty 0).2)
          actor.id
          (fun a => (a.spendResource "speed"
            (calculateDistance actor.x actor.y tx ty)).2)) ∧
      (actor.remainingSpeed < calculateDistance actor.x actor.y tx ty →
        ps' = ps ∧ res.logEvents = [LogEvent.error ("Cannot move " ++
          toString (calculateDistance actor.x actor.y tx ty) ++
          " squares with only " ++ toString actor.remainingSpeed ++
          " speed remaining.")])) := by
  obtain ⟨actor2, ability2, hAct2, hA2, hu, htv, r, hE, hres, hps⟩ :=
    executeAbility_success_inv abilities rng req ps ps' res h hs
  rw [hAct] at hAct2
  rw [hA] at hA2
  obtain rfl : actor = actor2 := Option.some.inj hAct2
  obtain rfl : ability = ability2 := Option.some.inj hA2
  constructor
  · intro hns
    rw [if_pos hns] at hE
    exact ⟨r, hE, hps⟩
  · rintro ⟨hte, hsp⟩ htt hse tx ty hx hy
    rw [if_neg (by simp [hte, hsp])] at hE
    have htvg := validateTargeting_ground ps actor ability req.primaryTarget
      tx ty htt hx hy htv
    rw [htvg] at hE
    have haid : actor.id = req.actorId := findP_id ps req.actorId actor hAct
    have hfp : findP ps actor.id = some actor := by
      rw [haid]
      exact hAct
    unfold applyEffects at hE
    rw [if_neg (by rw [htt]; decide)] at hE
    rw [if_pos hte] at hE
    unfold applyTeleportEffect at hE
    simp only at hE
    rw [hfp] at hE
    simp only at hE
    constructor
    · intro hle
      rw [if_neg (by push_neg; intro; omega)] at hE
      rw [if_pos hsp] at hE
      rw [if_neg (by simp [hse, truthyStr])] at hE
      simp only [Option.map_some', Option.some.injEq] at hE
      rw [hps, ← hE]
    · intro hgt
      rw [if_pos ⟨hsp, hgt⟩] at hE
      simp only [Option.map_some', Option.some.injEq] at hE
      refine ⟨?_, ?_⟩
      · rw [hps, ← hE]
      · rw [hres, ← hE]

/-- C4 — witness for `executeAbility_consumption_stage` (a concrete
`quick_movement` hop of distance 2 moves the actor and deducts 2 speed). -/
theorem executeAbility_consumption_stage_witness :
    ((executeAbility [qmAb] (fun _ => 1)
        ⟨"A", "quick_movement", ⟨none, some 2, some 2⟩⟩ [chA]).map fun rp => rp.2)
      = some (updateParticipant
          (updateParticipant [chA] chA.id fun a => (a.moveTo 2 2 0).2)
          chA.id
          (fun a => (a.spendResource "speed"
            (calculateDistance chA.x chA.y 2 2)).2)) := by
  rcases hrun : executeAbility [qmAb] (fun _ => 1)
      ⟨"A", "quick_movement", ⟨none, some 2, some 2⟩⟩ [chA] with _ | ⟨res0, ps0⟩
  · exact absurd hrun (by decide)
  · have hsucc : res0.success = true := by
      have h2 : (executeAbility [qmAb] (fun _ => 1)
          ⟨"A", "quick_movement", ⟨none, some 2, some 2⟩⟩ [chA]).map
          (fun rp => rp.1.success) = some true := by decide
      rw [hrun] at h2
      simpa using h2
    have hc := executeAbility_consumption_stage [qmAb] (fun _ => 1)
      ⟨"A", "quick_movement", ⟨none, some 2, some 2⟩⟩ [chA] ps0 res0 chA qmAb
      hrun hsucc rfl rfl
    have hsp := (hc.2 ⟨rfl, rfl⟩ rfl rfl 2 2 rfl rfl).1 (by decide)
    simp only [Option.map_some']
    rw [hsp]

end Marakatas
